import Mathlib

/-!
Shallow embedding of the PDF export engine of `src/lib/exporters.ts`
(QSMaxSP) and proofs about it.

Modelling conventions:
* JavaScript strings are modelled as `List Char` (`Str` below).  All strings
  the engine writes into a PDF are 7-bit ASCII (proved below), and Node's
  `Buffer.byteLength(s, "ascii")` always equals `s.length` (the UTF-16 code
  unit count), so byte lengths are modelled as `List.length`.
* JavaScript numbers that take part in layout arithmetic are modelled as
  rationals (`ℚ`).  The engine only adds, subtracts, multiplies, divides and
  compares layout quantities, so the rational model matches the float code on
  every branch the claims are about; deviations are possible only inside the
  untranslatable float-to-decimal-string conversion, which is therefore kept
  as an explicit parameter (`JsNumFormat`).
* Fallible code (`throw new Error(...)`) is modelled with `Except Str`.
-/

namespace QSMaxSP

/-- JavaScript strings, modelled as lists of unicode scalar values. -/
abbrev Str : Type := List Char

/-! ## Decimal digits: the model of JavaScript number-to-string for integers -/

/-- The decimal digit characters. -/
def digitChar : Nat → Char
  | 0 => '0' | 1 => '1' | 2 => '2' | 3 => '3' | 4 => '4'
  | 5 => '5' | 6 => '6' | 7 => '7' | 8 => '8' | _ => '9'

/-- Structural worker for `natDigits`; `fuel ≥ n` always suffices, and the
definition is kept structurally recursive so that concrete instances reduce
inside the kernel. -/
def natDigitsGo : Nat → Nat → Str
  | 0, n => [digitChar n]
  | fuel + 1, n =>
    if n < 10 then [digitChar n]
    else natDigitsGo fuel (n / 10) ++ [digitChar (n % 10)]

/-- Decimal representation of a natural number, most significant digit first.
This models the JavaScript conversions `String(n)` and `${n}` for the
nonnegative integers the serializer interpolates. -/
def natDigits (n : Nat) : Str := natDigitsGo n n

theorem natDigitsGo_irrel (n : Nat) : ∀ fuel1 fuel2 : Nat, n ≤ fuel1 → n ≤ fuel2 →
    natDigitsGo fuel1 n = natDigitsGo fuel2 n := by
  induction n using Nat.strong_induction_on with
  | _ n ih =>
    intro fuel1 fuel2 h1 h2
    match fuel1, fuel2 with
    | 0, 0 => rfl
    | 0, f2 + 1 =>
      have : n = 0 := by omega
      subst this
      simp [natDigitsGo]
    | f1 + 1, 0 =>
      have : n = 0 := by omega
      subst this
      simp [natDigitsGo]
    | f1 + 1, f2 + 1 =>
      by_cases h : n < 10
      · simp [natDigitsGo, h]
      · simp only [natDigitsGo, if_neg h]
        have hlt : n / 10 < n := Nat.div_lt_self (by omega) (by omega)
        rw [ih (n / 10) hlt f1 f2 (by omega) (by omega)]

/-- The defining equation of `natDigits`, in the form of the usual recursive
decimal print. -/
theorem natDigits_eq (n : Nat) :
    natDigits n = if n < 10 then [digitChar n] else natDigits (n / 10) ++ [digitChar (n % 10)] := by
  by_cases h : n < 10
  · unfold natDigits
    match n, h with
    | 0, _ => simp [natDigitsGo]
    | m + 1, h => simp [natDigitsGo, h]
  · simp only [if_neg h]
    unfold natDigits
    have hn : n = (n - 1) + 1 := by omega
    rw [hn]
    simp only [natDigitsGo, if_neg (show ¬ ((n-1)+1 < 10) by omega)]
    have h1 : ((n-1)+1) / 10 ≤ n - 1 := by omega
    have h2 : ((n-1)+1) / 10 = n / 10 := by omega
    rw [natDigitsGo_irrel (((n-1)+1) / 10) (n-1) (((n-1)+1) / 10) h1 (le_refl _), h2]

/-- Decimal representation of an integer (used for text y-coordinates, which
are integers in the plain-report builder). -/
def intStr (i : Int) : Str :=
  if i < 0 then '-' :: natDigits i.natAbs else natDigits i.toNat

/-- Reads a digit string back as a natural number (the parsing direction of
the round-trip checks). -/
def digitsToNat (s : Str) : Nat :=
  s.foldl (fun a c => a * 10 + (c.toNat - 48)) 0

theorem digitChar_isDigit (d : Nat) : (digitChar d).isDigit = true := by
  unfold digitChar
  split <;> decide

theorem digitChar_toNat (d : Nat) (h : d < 10) : (digitChar d).toNat = 48 + d := by
  interval_cases d <;> decide

theorem natDigits_ne_nil (n : Nat) : natDigits n ≠ [] := by
  rw [natDigits_eq]
  split
  · simp
  · simp

theorem natDigits_all_digit (n : Nat) : ∀ c ∈ natDigits n, c.isDigit = true := by
  induction n using Nat.strong_induction_on with
  | _ n ih =>
    rw [natDigits_eq]
    split
    · intro c hc
      simp at hc
      subst hc
      exact digitChar_isDigit n
    · intro c hc
      rename_i h
      rw [List.mem_append] at hc
      rcases hc with hc | hc
      · exact ih (n / 10) (Nat.div_lt_self (by omega) (by omega)) c hc
      · simp at hc
        subst hc
        exact digitChar_isDigit (n % 10)

/-- `digitsToNat` expressed with an explicit accumulator. -/
theorem digitsToNat_foldl_append (a : Nat) (s t : Str) :
    (s ++ t).foldl (fun a c => a * 10 + (c.toNat - 48)) a =
      t.foldl (fun a c => a * 10 + (c.toNat - 48))
        (s.foldl (fun a c => a * 10 + (c.toNat - 48)) a) := by
  simp [List.foldl_append]

theorem digitsToNat_natDigits_aux (n : Nat) (a : Nat) :
    (natDigits n).foldl (fun a c => a * 10 + (c.toNat - 48)) a = a * 10 ^ (natDigits n).length + n := by
  induction n using Nat.strong_induction_on generalizing a with
  | _ n ih =>
    rw [natDigits_eq]
    split
    · rename_i h
      simp [List.foldl, digitChar_toNat n h]
    · rename_i h
      rw [digitsToNat_foldl_append]
      rw [ih (n / 10) (Nat.div_lt_self (by omega) (by omega))]
      simp only [List.foldl, digitChar_toNat (n % 10) (Nat.mod_lt n (by omega)),
        List.length_append, List.length_cons, List.length_nil]
      have hmod : 48 + n % 10 - 48 = n % 10 := by omega
      rw [hmod]
      have hdm : n / 10 * 10 + n % 10 = n := by omega
      have hpow : 10 ^ ((natDigits (n / 10)).length + (0 + 1))
          = 10 ^ (natDigits (n / 10)).length * 10 := by ring
      rw [hpow]
      nlinarith [hdm]

/-- Round trip: parsing the decimal print of `n` gives back `n`. -/
theorem digitsToNat_natDigits (n : Nat) : digitsToNat (natDigits n) = n := by
  unfold digitsToNat
  rw [digitsToNat_natDigits_aux]
  simp

/-- Leading zeros do not change the parsed value. -/
theorem digitsToNat_replicate_zero (k : Nat) (s : Str) :
    digitsToNat (List.replicate k '0' ++ s) = digitsToNat s := by
  unfold digitsToNat
  rw [List.foldl_append]
  congr 1
  induction k with
  | zero => simp
  | succ k ih => simp [List.replicate_succ, ih]

/-- 10 ^ k bounds give digit-count bounds for `natDigits`. -/
theorem natDigits_length_le (n k : Nat) (hk : 1 ≤ k) (h : n < 10 ^ k) :
    (natDigits n).length ≤ k := by
  induction k generalizing n with
  | zero => omega
  | succ k ih =>
    rw [natDigits_eq]
    split
    · simp only [List.length_cons, List.length_nil]
      omega
    · rename_i hn
      simp only [List.length_append, List.length_cons, List.length_nil]
      have h2 : n / 10 < 10 ^ k := by
        have : n < 10 ^ k * 10 := by
          calc n < 10 ^ (k + 1) := h
          _ = 10 ^ k * 10 := by ring
        omega
      rcases Nat.eq_zero_or_pos k with hk0 | hkpos
      · subst hk0
        simp at h2
        omega
      · have := ih (n / 10) hkpos h2
        omega

/-! ## The text sanitizer `toPdfSafeAscii` (exporters.ts:239-251) -/

/-- Models the first replacement `input.replace(/\r?\n/g, " ")`: each CRLF
pair and each lone LF becomes one space (a lone CR is untouched here and is
downgraded to `?` by the printable-ASCII pass below). -/
def replaceNewlines : Str → Str
  | [] => []
  | '\r' :: '\n' :: rest => ' ' :: replaceNewlines rest
  | '\n' :: rest => ' ' :: replaceNewlines rest
  | c :: rest => c :: replaceNewlines rest

/-- Models the second replacement `.replace(/\t/g, "  ")`: tab to two
spaces. -/
def replaceTabs : Str → Str
  | [] => []
  | '\t' :: rest => ' ' :: ' ' :: replaceTabs rest
  | c :: rest => c :: replaceTabs rest

/-- The per-character pass of `toPdfSafeAscii`: characters outside printable
ASCII `[0x20, 0x7E]` become `?`.  (`charCodeAt(0)` of a one-code-point string
equals the scalar value for BMP characters, and for astral characters both the
surrogate code and the scalar value lie outside `[0x20, 0x7E]`, so the `?`
outcome agrees.) -/
def pdfSafeChar (c : Char) : Char :=
  if 32 ≤ c.toNat ∧ c.toNat ≤ 126 then c else '?'

/-- `toPdfSafeAscii` (exporters.ts:239-251). -/
def toPdfSafeAscii (input : Str) : Str :=
  (replaceTabs (replaceNewlines input)).map pdfSafeChar

/-- A JavaScript global single-character `String.replace`, which is exactly a
`flatMap` over the characters. -/
def replaceGlobal (target : Char) (repl : Str) (s : Str) : Str :=
  s.flatMap (fun c => if c = target then repl else [c])

/-- `escapePdfText` (exporters.ts:253-258): sanitize, then the three
sequential global replacements `\ → \\`, `( → \(`, `) → \)`. -/
def escapePdfText (input : Str) : Str :=
  replaceGlobal ')' ['\\', ')']
    (replaceGlobal '(' ['\\', '(']
      (replaceGlobal '\\' ['\\', '\\'] (toPdfSafeAscii input)))

/-- The spec's description of the escaper: each of `\`, `(`, `)` is prefixed
by a backslash (spec.md §4.1), applied characterwise after `toSafeAscii`. -/
def escapeSpecChar (c : Char) : Str :=
  if c = '\\' ∨ c = '(' ∨ c = ')' then ['\\', c] else [c]

/-- The claimed form of the escaper, built from the spec's words, to be
compared with the source's three sequential replacements. -/
def escapePdfTextSpec (input : Str) : Str :=
  (toPdfSafeAscii input).flatMap escapeSpecChar

theorem replaceGlobal_nil (t : Char) (r : Str) : replaceGlobal t r [] = [] := rfl

theorem replaceGlobal_append (t : Char) (r : Str) (a b : Str) :
    replaceGlobal t r (a ++ b) = replaceGlobal t r a ++ replaceGlobal t r b := by
  unfold replaceGlobal
  exact List.flatMap_append a b _

/-- The three sequential replacements coincide with the characterwise
escaping the spec describes. -/
theorem escape_chain_eq_flatMap (l : Str) :
    replaceGlobal ')' ['\\', ')']
      (replaceGlobal '(' ['\\', '(']
        (replaceGlobal '\\' ['\\', '\\'] l)) = l.flatMap escapeSpecChar := by
  induction l with
  | nil => rfl
  | cons c rest ih =>
    have hc : replaceGlobal '\\' ['\\', '\\'] (c :: rest) =
        (if c = '\\' then ['\\', '\\'] else [c]) ++ replaceGlobal '\\' ['\\', '\\'] rest := by
      unfold replaceGlobal
      simp [List.flatMap_cons]
    rw [hc, replaceGlobal_append, replaceGlobal_append, ih]
    by_cases h1 : c = '\\'
    · subst h1
      rfl
    · by_cases h2 : c = '('
      · subst h2
        rfl
      · by_cases h3 : c = ')'
        · subst h3
          rfl
        · simp only [if_neg h1]
          have e1 : replaceGlobal '(' ['\\', '('] [c] = [c] := by
            unfold replaceGlobal
            simp [List.flatMap_cons, h2]
          have e2 : replaceGlobal ')' ['\\', ')'] [c] = [c] := by
            unfold replaceGlobal
            simp [List.flatMap_cons, h3]
          rw [e1, e2]
          have e3 : (c :: rest).flatMap escapeSpecChar
              = escapeSpecChar c ++ rest.flatMap escapeSpecChar := by
            simp [List.flatMap_cons]
          rw [e3]
          have e4 : escapeSpecChar c = [c] := by
            unfold escapeSpecChar
            simp [h1, h2, h3]
          rw [e4]

theorem escapePdfText_eq_spec (input : Str) :
    escapePdfText input = escapePdfTextSpec input := by
  unfold escapePdfText escapePdfTextSpec
  exact escape_chain_eq_flatMap (toPdfSafeAscii input)

/-- Claim C8: for every input string, `escapePdfText` equals `toPdfSafeAscii`
followed by backslash-prefixing each `\`, `(`, `)`; `toPdfSafeAscii` collapses
`\r\n`/`\n` to one space and tabs to two spaces and downgrades characters
outside printable ASCII to `?` (this is its definition above, traced from the
source); both functions are total Lean functions (so they never throw), map
the empty string to the empty string, and on `"Côté (Ops)"` produce the
expected escaped/downgraded output. -/
theorem claim_C8_escape :
    (∀ s : Str, escapePdfText s = escapePdfTextSpec s) ∧
    escapePdfText [] = [] ∧
    toPdfSafeAscii [] = [] ∧
    escapePdfText ("Côté (Ops)".data) = ("C?t? \\(Ops\\)".data) := by
  refine ⟨escapePdfText_eq_spec, rfl, rfl, ?_⟩
  decide

/-! ## The cell wrapper `wrapPdfCellText` (exporters.ts:528-569)

After `toPdfSafeAscii` the only whitespace character left in a string is the
plain space, so JavaScript's `\s`, `trim`, `trimStart` and `trimEnd` act on
spaces only; the models below therefore treat the space character. -/

/-- `trimStart` on a sanitized string. -/
def trimSpaceStart (s : Str) : Str := s.dropWhile (fun c => c = ' ')

/-- `trimEnd` on a sanitized string. -/
def trimSpaceEnd (s : Str) : Str := (s.reverse.dropWhile (fun c => c = ' ')).reverse

/-- `trim` on a sanitized string. -/
def trimSpace (s : Str) : Str := trimSpaceEnd (trimSpaceStart s)

/-- Structural worker for `collapseSpaces`; `fuel ≥ s.length` always
suffices. -/
def collapseSpacesGo : Nat → Str → Str
  | _, [] => []
  | 0, s => s
  | fuel + 1, c :: rest =>
    if c = ' ' then ' ' :: collapseSpacesGo fuel (rest.dropWhile (fun d => d = ' '))
    else c :: collapseSpacesGo fuel rest

/-- `replace(/\s+/g, " ")` on a sanitized string: each run of spaces becomes
one space. -/
def collapseSpaces (s : Str) : Str := collapseSpacesGo s.length s

theorem collapseSpacesGo_irrel : ∀ fuel1 : Nat, ∀ (s : Str) (fuel2 : Nat),
    s.length ≤ fuel1 → s.length ≤ fuel2 →
    collapseSpacesGo fuel1 s = collapseSpacesGo fuel2 s := by
  intro fuel1
  induction fuel1 with
  | zero =>
    intro s fuel2 h1 _
    have : s = [] := by
      cases s with
      | nil => rfl
      | cons c rest => simp at h1
    subst this
    cases fuel2 <;> rfl
  | succ f1 ih =>
    intro s fuel2 h1 h2
    cases s with
    | nil => cases fuel2 <;> rfl
    | cons c rest =>
      simp only [List.length_cons] at h1 h2
      cases fuel2 with
      | zero => omega
      | succ f2 =>
        by_cases hc : c = ' '
        · simp only [collapseSpacesGo, if_pos hc]
          have hsub : (rest.dropWhile (fun d => d = ' ')).length ≤ rest.length :=
            (rest.dropWhile_suffix (fun d => d = ' ')).length_le
          rw [ih _ f2 (by omega) (by omega)]
        · simp only [collapseSpacesGo, if_neg hc]
          rw [ih rest f2 (by omega) (by omega)]

/-- The defining equation of `collapseSpaces` on a cons cell. -/
theorem collapseSpaces_cons (c : Char) (rest : Str) :
    collapseSpaces (c :: rest) =
      if c = ' ' then ' ' :: collapseSpaces (rest.dropWhile (fun d => d = ' '))
      else c :: collapseSpaces rest := by
  unfold collapseSpaces
  simp only [List.length_cons, collapseSpacesGo]
  by_cases hc : c = ' '
  · simp only [if_pos hc]
    have hsub : (rest.dropWhile (fun d => d = ' ')).length ≤ rest.length :=
      (rest.dropWhile_suffix (fun d => d = ' ')).length_le
    rw [collapseSpacesGo_irrel rest.length _ _ hsub (le_refl _)]
  · simp only [if_neg hc]

/-- JavaScript `s.lastIndexOf(" ", pos)` for a one-character needle: the
largest index `i ≤ pos` with `s[i] = ' '`, or `-1` when there is none. -/
def lastSpaceLE : Str → Nat → Int
  | [], _ => -1
  | c :: _, 0 => if c = ' ' then 0 else -1
  | c :: rest, pos + 1 =>
    let r := lastSpaceLE rest pos
    if 0 ≤ r then r + 1 else if c = ' ' then 0 else -1

/-- The `while (rest.length > maxChars)` loop of `wrapPdfCellText`
(exporters.ts:542-554), including the final `if (rest.length) push rest`.
`fuel` bounds the number of loop iterations; `rest.length` iterations always
suffice when `maxChars ≥ 1` because every iteration strictly shortens `rest`
(proved below), so the fuel-exhausted branch is unreachable in the uses the
claims are about.  The `Math.floor(maxChars * 0.55)` window threshold is
modelled as the exact `11 * maxChars / 20`; every property proved below holds
for any threshold value in `[0, maxChars]`, so a one-unit float deviation in
the threshold cannot affect the claims. -/
def wrapCellGo (maxChars : Nat) (fuel : Nat) (rest : Str) : List Str :=
  if rest.length ≤ maxChars then (if rest.isEmpty then [] else [rest])
  else
    match fuel with
    | 0 => [rest]
    | fuel' + 1 =>
      let cut0 : Int := lastSpaceLE rest maxChars
      let cut : Int := if cut0 < ((11 * maxChars / 20 : Nat) : Int) then (maxChars : Int) else cut0
      trimSpaceEnd (rest.take cut.toNat) ::
        wrapCellGo maxChars fuel' (trimSpaceStart (rest.drop cut.toNat))

/-- `wrapPdfCellText` (exporters.ts:528-569).  The truncation branch writes
the last kept line through `clipped.dropLast ++ [newLast]`, which is the
functional form of the source's in-place `clipped[lastIndex] = ...` (the
mutated index is the final one because `clipped` has exactly `maxLines`
elements there).  The comparison `last.length > maxChars - 3` is over
JavaScript numbers, hence over `Int`. -/
def wrapPdfCellText (input : Str) (maxChars maxLines : Nat)
    (emptyPlaceholder : Str := ['-']) : List Str :=
  let safe := trimSpace (collapseSpaces (toPdfSafeAscii input))
  if safe.isEmpty then [emptyPlaceholder]
  else
    let wrapped := wrapCellGo maxChars safe.length safe
    if wrapped.length ≤ maxLines then wrapped
    else
      let clipped := wrapped.take maxLines
      let last := clipped.getLastD []
      let newLast :=
        if ((last.length : Int)) > ((maxChars : Int) - 3)
        then trimSpaceEnd (last.take (maxChars - 3)) ++ ['.', '.', '.']
        else last ++ ['.', '.', '.']
      clipped.dropLast ++ [newLast]

/-! ### Wrapper invariants (claim C6) -/

theorem head_dropWhile_not (p : Char → Bool) :
    ∀ (l : Str) (c : Char), (l.dropWhile p).head? = some c → p c = false := by
  intro l
  induction l with
  | nil =>
    intro c h
    simp [List.dropWhile] at h
  | cons a t ih =>
    intro c h
    by_cases hp : p a = true
    · rw [List.dropWhile_cons_of_pos hp] at h
      exact ih c h
    · rw [List.dropWhile_cons_of_neg hp] at h
      simp at h
      subst h
      simpa using hp

theorem trimSpaceStart_head (s : Str) : (trimSpaceStart s).head? ≠ some ' ' := by
  intro h
  have := head_dropWhile_not (fun c => c = ' ') s ' ' h
  simp at this

theorem trimSpaceStart_length_le (s : Str) : (trimSpaceStart s).length ≤ s.length :=
  (s.dropWhile_suffix (fun c => c = ' ')).length_le

theorem trimSpaceEnd_prefix_self (s : Str) : trimSpaceEnd s <+: s := by
  unfold trimSpaceEnd
  have h := s.reverse.dropWhile_suffix (fun c => c = ' ')
  have h2 := List.reverse_prefix.mpr h
  simpa using h2

theorem trimSpaceEnd_length_le (s : Str) : (trimSpaceEnd s).length ≤ s.length :=
  (trimSpaceEnd_prefix_self s).length_le

theorem trimSpaceEnd_head (s : Str) (h : s.head? ≠ some ' ') :
    (trimSpaceEnd s).head? ≠ some ' ' := by
  obtain ⟨t, ht⟩ := trimSpaceEnd_prefix_self s
  cases he : trimSpaceEnd s with
  | nil => simp
  | cons c cs =>
    rw [he] at ht
    intro hcontra
    simp at hcontra
    apply h
    rw [← ht]
    simp [hcontra]

theorem trimSpace_head (s : Str) : (trimSpace s).head? ≠ some ' ' :=
  trimSpaceEnd_head _ (trimSpaceStart_head s)

/-- `trimSpaceEnd` is empty exactly when the string is all spaces. -/
theorem trimSpaceEnd_eq_nil_iff (s : Str) :
    trimSpaceEnd s = [] ↔ ∀ c ∈ s, c = ' ' := by
  unfold trimSpaceEnd
  rw [List.reverse_eq_nil_iff, List.dropWhile_eq_nil_iff]
  constructor
  · intro h c hc
    have := h c (by simpa using hc)
    simpa using this
  · intro h c hc
    have := h c (by simpa using hc)
    simp [this]

theorem lastSpaceLE_le (s : Str) : ∀ pos : Nat, lastSpaceLE s pos ≤ (pos : Int) := by
  induction s with
  | nil =>
    intro pos
    simp [lastSpaceLE]
    omega
  | cons c rest ih =>
    intro pos
    cases pos with
    | zero =>
      simp only [lastSpaceLE]
      split <;> omega
    | succ p =>
      simp only [lastSpaceLE]
      have := ih p
      split
      · omega
      · split <;> omega

theorem lastSpaceLE_eq_zero (c : Char) (rest : Str) (pos : Nat)
    (h : lastSpaceLE (c :: rest) pos = 0) : c = ' ' := by
  cases pos with
  | zero =>
    simp only [lastSpaceLE] at h
    by_cases hc : c = ' '
    · exact hc
    · simp [hc] at h
  | succ p =>
    simp only [lastSpaceLE] at h
    by_cases hr : 0 ≤ lastSpaceLE rest p
    · rw [if_pos hr] at h
      omega
    · rw [if_neg hr] at h
      by_cases hc : c = ' '
      · exact hc
      · simp [hc] at h

/-- Every line produced by the wrap loop is at most `maxChars` long, given
adequate fuel and a rest that does not start with a space (the loop maintains
this through `trimStart`). -/
theorem wrapCellGo_line_le (mc : Nat) (hmc : 1 ≤ mc) :
    ∀ (fuel : Nat) (rest : Str), rest.length ≤ fuel → rest.head? ≠ some ' ' →
      ∀ l ∈ wrapCellGo mc fuel rest, l.length ≤ mc := by
  intro fuel
  induction fuel with
  | zero =>
    intro rest hlen _ l hl
    have hnil : rest = [] := by
      cases rest with
      | nil => rfl
      | cons a t => simp at hlen
    subst hnil
    simp [wrapCellGo, hmc] at hl
  | succ f ih =>
    intro rest hlen hhead l hl
    unfold wrapCellGo at hl
    by_cases hle : rest.length ≤ mc
    · rw [if_pos hle] at hl
      by_cases he : rest.isEmpty
      · simp [he] at hl
      · simp [he] at hl
        subst hl
        exact hle
    · rw [if_neg hle] at hl
      push_neg at hle
      have hne : rest ≠ [] := by
        intro hcontra
        subst hcontra
        simp at hle
      -- the cut is between 1 and maxChars
      set cut0 : Int := lastSpaceLE rest mc with hcut0
      set cut : Int := if cut0 < ((11 * mc / 20 : Nat) : Int) then (mc : Int) else cut0 with hcut
      have hcut_le : cut.toNat ≤ mc := by
        rw [hcut]
        split
        · simp
        · rename_i hge
          push_neg at hge
          have h1 : cut0 ≤ (mc : Int) := by
            rw [hcut0]
            exact lastSpaceLE_le rest mc
          omega
      have hcut_pos : 1 ≤ cut.toNat := by
        rw [hcut]
        split
        · omega
        · rename_i hge
          push_neg at hge
          have h0 : 0 ≤ cut0 := le_trans (by positivity) hge
          by_cases hz : cut0 = 0
          · -- cut0 = 0 forces the head of rest to be a space, contradiction
            obtain ⟨c, t, hct⟩ : ∃ c t, rest = c :: t := by
              cases rest with
              | nil => exact absurd rfl hne
              | cons c t => exact ⟨c, t, rfl⟩
            rw [hct] at hcut0
            have := lastSpaceLE_eq_zero c t mc (by omega)
            rw [hct] at hhead
            simp [this] at hhead
          · omega
      rcases List.mem_cons.mp hl with hl | hl
      · -- the pushed line
        rw [hl]
        calc (trimSpaceEnd ((rest.take cut.toNat))).length
            ≤ (rest.take cut.toNat).length := trimSpaceEnd_length_le _
          _ ≤ cut.toNat := by simp
          _ ≤ mc := hcut_le
      · -- lines from the recursive call
        apply ih (trimSpaceStart (rest.drop cut.toNat)) ?_ ?_ l hl
        · have h1 : (trimSpaceStart (rest.drop cut.toNat)).length ≤ (rest.drop cut.toNat).length :=
            trimSpaceStart_length_le _
          have h2 : (rest.drop cut.toNat).length = rest.length - cut.toNat := by simp
          omega
        · exact trimSpaceStart_head _

theorem wrapCellGo_ne_nil (mc fuel : Nat) (rest : Str) (h : rest ≠ []) :
    wrapCellGo mc fuel rest ≠ [] := by
  unfold wrapCellGo
  split
  · simp [h]
  · cases fuel with
    | zero => simp
    | succ f => simp

/-- The sanitized-collapsed-trimmed form of the input, as computed at the top
of `wrapPdfCellText`. -/
def wrapSafeForm (input : Str) : Str := trimSpace (collapseSpaces (toPdfSafeAscii input))

theorem wrapPdfCellText_def (input : Str) (maxChars maxLines : Nat) (ph : Str) :
    wrapPdfCellText input maxChars maxLines ph =
      if (wrapSafeForm input).isEmpty then [ph]
      else
        let wrapped := wrapCellGo maxChars (wrapSafeForm input).length (wrapSafeForm input)
        if wrapped.length ≤ maxLines then wrapped
        else
          let clipped := wrapped.take maxLines
          let last := clipped.getLastD []
          let newLast :=
            if ((last.length : Int)) > ((maxChars : Int) - 3)
            then trimSpaceEnd (last.take (maxChars - 3)) ++ ['.', '.', '.']
            else last ++ ['.', '.', '.']
          clipped.dropLast ++ [newLast] := rfl

/-- Claim C6, amended: for `maxChars ≥ 1` and `maxLines ≥ 1`,
`wrapPdfCellText` returns between 1 and `maxLines` lines; blank input (after
sanitizing and collapsing whitespace) returns exactly `[placeholder]`; when
the input is not blank and `maxChars ≥ 3`, every returned line has length at
most `maxChars`; and when the un-truncated wrap exceeds `maxLines` lines, the
returned last line ends with `"..."`, with length at most `maxChars` whenever
`maxChars ≥ 3` (for `maxChars ≤ 2` the ellipsis itself exceeds the budget —
see the counterexample — and a placeholder longer than `maxChars` is returned
verbatim, which is why the line-length bound excludes the blank case). -/
theorem claim_C6_amended (input : Str) (maxChars maxLines : Nat) (ph : Str)
    (hmc : 1 ≤ maxChars) (hml : 1 ≤ maxLines) :
    (1 ≤ (wrapPdfCellText input maxChars maxLines ph).length ∧
      (wrapPdfCellText input maxChars maxLines ph).length ≤ maxLines) ∧
    ((wrapSafeForm input).isEmpty = true →
      wrapPdfCellText input maxChars maxLines ph = [ph]) ∧
    ((wrapSafeForm input).isEmpty = false → 3 ≤ maxChars →
      ∀ l ∈ wrapPdfCellText input maxChars maxLines ph, l.length ≤ maxChars) ∧
    ((wrapSafeForm input).isEmpty = false →
      maxLines < (wrapCellGo maxChars (wrapSafeForm input).length (wrapSafeForm input)).length →
      ∃ pre, (wrapPdfCellText input maxChars maxLines ph).getLast? = some (pre ++ ['.', '.', '.']) ∧
        (3 ≤ maxChars → pre.length + 3 ≤ maxChars)) := by
  by_cases hblank : (wrapSafeForm input).isEmpty
  · rw [wrapPdfCellText_def, if_pos hblank]
    refine ⟨⟨by simp, by simp; omega⟩, fun _ => rfl, ?_, ?_⟩
    · intro hcontra
      rw [hblank] at hcontra
      exact absurd hcontra (by simp)
    · intro hcontra
      rw [hblank] at hcontra
      exact absurd hcontra (by simp)
  · have hblankF : (wrapSafeForm input).isEmpty = false := by
      simpa using hblank
    have hsafe_ne : wrapSafeForm input ≠ [] := by
      intro h
      rw [h] at hblankF
      simp at hblankF
    have hhead : (wrapSafeForm input).head? ≠ some ' ' := trimSpace_head _
    have hbounds := wrapCellGo_line_le maxChars hmc (wrapSafeForm input).length
      (wrapSafeForm input) (le_refl _) hhead
    have hwrapped_ne : wrapCellGo maxChars (wrapSafeForm input).length (wrapSafeForm input) ≠ [] :=
      wrapCellGo_ne_nil _ _ _ hsafe_ne
    rw [wrapPdfCellText_def, if_neg (by simp [hblankF])]
    simp only []
    by_cases htr : (wrapCellGo maxChars (wrapSafeForm input).length (wrapSafeForm input)).length
        ≤ maxLines
    · rw [if_pos htr]
      refine ⟨⟨?_, htr⟩, ?_, ?_, ?_⟩
      · exact List.length_pos.mpr hwrapped_ne
      · intro hcontra
        rw [hcontra] at hblankF
        simp at hblankF
      · intro _ _ l hl
        exact hbounds l hl
      · intro _ hcontra
        omega
    · rw [if_neg htr]
      push_neg at htr
      set wrapped := wrapCellGo maxChars (wrapSafeForm input).length (wrapSafeForm input)
        with hwrapped
      set clipped := wrapped.take maxLines with hclipped
      have hclip_len : clipped.length = maxLines := by
        rw [hclipped]
        simp [List.length_take]
        omega
      set last := clipped.getLastD [] with hlast
      have hlen_res :
          (clipped.dropLast ++ [if ((last.length : Int)) > ((maxChars : Int) - 3)
            then trimSpaceEnd (last.take (maxChars - 3)) ++ ['.', '.', '.']
            else last ++ ['.', '.', '.']]).length = maxLines := by
        simp [List.length_dropLast, hclip_len]
        omega
      have hnewLast_len : (if ((last.length : Int)) > ((maxChars : Int) - 3)
            then trimSpaceEnd (last.take (maxChars - 3)) ++ ['.', '.', '.']
            else last ++ ['.', '.', '.']).length ≤ maxChars ∨ ¬ 3 ≤ maxChars := by
        by_cases h3 : 3 ≤ maxChars
        · left
          split
          · rename_i hgt
            have h1 : (trimSpaceEnd (last.take (maxChars - 3))).length
                ≤ (last.take (maxChars - 3)).length := trimSpaceEnd_length_le _
            have h2 : (last.take (maxChars - 3)).length ≤ maxChars - 3 := by simp
            simp only [List.length_append, List.length_cons, List.length_nil]
            omega
          · rename_i hle
            push_neg at hle
            have : (last.length : Int) + 3 ≤ (maxChars : Int) := by omega
            simp only [List.length_append, List.length_cons, List.length_nil]
            omega
        · right
          exact h3
      refine ⟨⟨?_, ?_⟩, ?_, ?_, ?_⟩
      · rw [hlen_res]
        omega
      · rw [hlen_res]
      · intro hcontra
        rw [hcontra] at hblankF
        simp at hblankF
      · intro _ h3 l hl
        rcases List.mem_append.mp hl with hl | hl
        · have h1 : l ∈ clipped := (List.dropLast_prefix clipped).subset hl
          have h2 : l ∈ wrapped := (List.take_prefix maxLines wrapped).subset h1
          exact hbounds l h2
        · simp at hl
          rw [hl]
          rcases hnewLast_len with h | h
          · exact h
          · exact absurd h3 h
      · intro _ _
        refine ⟨if ((last.length : Int)) > ((maxChars : Int) - 3)
            then trimSpaceEnd (last.take (maxChars - 3)) else last, ?_, ?_⟩
        · rw [List.getLast?_concat]
          congr 1
          split <;> rfl
        · intro h3
          rcases hnewLast_len with h | h
          · revert h
            split <;> (intro h; simp only [List.length_append, List.length_cons,
              List.length_nil] at h; omega)
          · exact absurd h3 h

/-- Claim C6 as stated is false: with `maxChars = 1`, `maxLines = 2` the
truncated last line is the bare ellipsis `"..."`, of length 3 > `maxChars`. -/
theorem claim_C6_counterexample :
    wrapPdfCellText ("a b c d".data) 1 2 ("-".data) = ["a".data, "...".data] ∧
    ¬ (∀ l ∈ wrapPdfCellText ("a b c d".data) 1 2 ("-".data), l.length ≤ 1) := by
  constructor
  · decide
  · decide

/-- Witness for the amended claim C6 at a concrete input. -/
theorem claim_C6_amended_witness :
    (1 ≤ 5 ∧ 1 ≤ 2) ∧
    ((1 ≤ (wrapPdfCellText ("hello world".data) 5 2 ("-".data)).length ∧
      (wrapPdfCellText ("hello world".data) 5 2 ("-".data)).length ≤ 2) ∧
    ((wrapSafeForm ("hello world".data)).isEmpty = true →
      wrapPdfCellText ("hello world".data) 5 2 ("-".data) = ["-".data]) ∧
    ((wrapSafeForm ("hello world".data)).isEmpty = false → 3 ≤ 5 →
      ∀ l ∈ wrapPdfCellText ("hello world".data) 5 2 ("-".data), l.length ≤ 5) ∧
    ((wrapSafeForm ("hello world".data)).isEmpty = false →
      2 < (wrapCellGo 5 (wrapSafeForm ("hello world".data)).length
        (wrapSafeForm ("hello world".data))).length →
      ∃ pre, (wrapPdfCellText ("hello world".data) 5 2 ("-".data)).getLast?
          = some (pre ++ ['.', '.', '.']) ∧
        (3 ≤ 5 → pre.length + 3 ≤ 5))) :=
  ⟨⟨by decide, by decide⟩,
    claim_C6_amended ("hello world".data) 5 2 ("-".data) (by decide) (by decide)⟩

/-! ## Engagement report data model (exporters.ts:478-513, lib/types usage)

JavaScript numbers carried by the DTOs (`days`, spreads, totals) are modelled
as rationals; row numbers are the nonnegative integers used as record keys. -/

/-- `Spread` (five year-percentage slots). -/
structure Spread where
  y1 : ℚ
  y2 : ℚ
  y3 : ℚ
  y4 : ℚ
  y5 : ℚ

/-- The `totals` part of `QuickSizerResult`. -/
structure SizerTotals where
  selectedDays : ℚ
  y1 : ℚ
  y2 : ℚ
  y3 : ℚ
  y4 : ℚ
  y5 : ℚ

/-- One element of `QuickSizerResult.rows`. -/
structure SizerRow where
  row : Nat
  name : Str
  size : Str
  selectedDays : ℚ
  y1 : ℚ
  y2 : ℚ
  y3 : ℚ
  y4 : ℚ
  y5 : ℚ

/-- `QuickSizerResult`. -/
structure QuickSizerResult where
  rows : List SizerRow
  totals : SizerTotals

/-- `EngagementCsvServiceDetail` (exporters.ts:36-40). -/
structure ServiceDetail where
  serviceName : Str
  sectionName : Option Str
  days : ℚ

/-- `EngagementReportRowVariant` (exporters.ts:478). -/
inductive RowVariant
  | service
  | scenarioTotal
  | grandTotal
  | empty
deriving DecidableEq

/-- `EngagementReportRow` (exporters.ts:480-488). -/
structure EngagementReportRow where
  rowLabel : Str
  scenario : Str
  size : Str
  service : Str
  «section» : Str
  days : ℚ
  variant : RowVariant

/-- `PreparedEngagementReportRow` (exporters.ts:499-504). -/
structure PreparedEngagementReportRow extends EngagementReportRow where
  scenarioLines : List Str
  serviceLines : List Str
  sectionLines : List Str
  rowHeight : ℚ

/-! Page geometry constants (exporters.ts:7-14, 515-521). -/

def PDF_PAGE_WIDTH : Nat := 842
def PDF_PAGE_HEIGHT : Nat := 595
def PDF_MARGIN_X : Nat := 30
def PDF_MARGIN_TOP : Nat := 30
def PDF_MARGIN_BOTTOM : Nat := 30
def PDF_LINE_HEIGHT : Nat := 12
def PDF_TITLE_OFFSET : Nat := 22
def PDF_MAX_LINE_LENGTH : Nat := 150

def REPORT_TABLE_X : ℚ := 32
def REPORT_TABLE_HEADER_HEIGHT : ℚ := 18
def REPORT_TABLE_TOP_Y : ℚ := (PDF_PAGE_HEIGHT : ℚ) - 204
def REPORT_TABLE_BOTTOM_Y : ℚ := 34
def REPORT_ROW_FONT_SIZE : ℚ := 8
/-- `8.8`, exact as a rational. -/
def REPORT_ROW_LINE_HEIGHT : ℚ := 44 / 5
def REPORT_CELL_PADDING_X : ℚ := 4

/-! ## Row construction `buildEngagementReportRows` (exporters.ts:598-658) -/

/-- The rows the per-scenario loop body pushes: either the detail rows (first
detail row carries the label/scenario/size) or one `empty`-variant fallback
row, followed by the scenario-total row. -/
def scenarioRowsFor (serviceSummaryByRow : Nat → Option Str)
    (serviceDetailsByRow : Nat → Option (List ServiceDetail))
    (row : SizerRow) : List EngagementReportRow :=
  let details := (serviceDetailsByRow row.row).getD []
  let fallbackSummary := (serviceSummaryByRow row.row).getD
    (if row.size = "Custom".data then "Custom service allocation".data
     else "Preset package".data)
  (if details.isEmpty then
    [{ rowLabel := natDigits row.row, scenario := row.name, size := row.size,
       service := fallbackSummary, «section» := "-".data, days := row.selectedDays,
       variant := .empty }]
   else
    details.enum.map (fun p =>
      { rowLabel := if p.1 = 0 then natDigits row.row else [],
        scenario := if p.1 = 0 then row.name else [],
        size := if p.1 = 0 then row.size else [],
        service := p.2.serviceName,
        «section» := p.2.sectionName.getD ("-".data),
        days := p.2.days,
        variant := .service }))
  ++ [{ rowLabel := [], scenario := [], size := [], service := "Scenario Total".data,
        «section» := row.name, days := row.selectedDays, variant := .scenarioTotal }]

/-- The grand-total row appended after the loop (exporters.ts:647-655). -/
def grandTotalReportRow (totals : SizerTotals) : EngagementReportRow :=
  { rowLabel := [], scenario := [], size := [], service := "Grand Total".data,
    «section» := [], days := totals.selectedDays, variant := .grandTotal }

/-- `buildEngagementReportRows` (exporters.ts:598-658). -/
def buildEngagementReportRows (result : QuickSizerResult)
    (serviceSummaryByRow : Nat → Option Str)
    (serviceDetailsByRow : Nat → Option (List ServiceDetail)) : List EngagementReportRow :=
  (result.rows.flatMap (scenarioRowsFor serviceSummaryByRow serviceDetailsByRow))
    ++ [grandTotalReportRow result.totals]

/-- `prepareEngagementReportRows` (exporters.ts:660-675). -/
def prepareEngagementReportRows (rows : List EngagementReportRow) :
    List PreparedEngagementReportRow :=
  rows.map (fun row =>
    let scenarioLines := wrapPdfCellText row.scenario 36 3 []
    let serviceLines := wrapPdfCellText row.service 34 3 []
    let sectionLines := wrapPdfCellText row.«section» 32 3 []
    let lineCount := max 1 (max scenarioLines.length (max serviceLines.length sectionLines.length))
    { toEngagementReportRow := row,
      scenarioLines := scenarioLines,
      serviceLines := serviceLines,
      sectionLines := sectionLines,
      rowHeight := max 16 (8 + (lineCount : ℚ) * REPORT_ROW_LINE_HEIGHT) })

/-! ## Pagination `paginateEngagementReportRows` (exporters.ts:677-703) -/

/-- `usableHeight` (exporters.ts:680). -/
def usableHeight : ℚ := REPORT_TABLE_TOP_Y - REPORT_TABLE_HEADER_HEIGHT - REPORT_TABLE_BOTTOM_Y

/-- The pagination loop: `current`/`used` are the accumulating page and its
used height; a flush pushes the current page and starts a new one holding the
row that did not fit. -/
def paginateGo : List PreparedEngagementReportRow → List PreparedEngagementReportRow → ℚ →
    List (List PreparedEngagementReportRow)
  | [], current, _ => if current.isEmpty then [[]] else [current]
  | row :: rest, current, used =>
    if 0 < current.length ∧ usableHeight < used + row.rowHeight then
      current :: paginateGo rest [row] row.rowHeight
    else
      paginateGo rest (current ++ [row]) (used + row.rowHeight)

/-- `paginateEngagementReportRows` (exporters.ts:677-703). -/
def paginateEngagementReportRows (rows : List PreparedEngagementReportRow) :
    List (List PreparedEngagementReportRow) :=
  paginateGo rows [] 0

theorem paginateGo_flatten : ∀ (rows current : List PreparedEngagementReportRow) (used : ℚ),
    (paginateGo rows current used).flatten = current ++ rows := by
  intro rows
  induction rows with
  | nil =>
    intro current used
    by_cases h : current.isEmpty
    · have : current = [] := by simpa using h
      subst this
      simp [paginateGo]
    · rw [paginateGo, if_neg h]
      simp
  | cons row rest ih =>
    intro current used
    rw [paginateGo]
    split
    · simp [ih]
    · rw [ih]
      simp

/-- Claim C3: concatenating the pages returned by
`paginateEngagementReportRows`, in order, yields exactly the input row list —
no row is dropped, duplicated, split or reordered. -/
theorem claim_C3_pagination_preserves_rows (rows : List PreparedEngagementReportRow) :
    (paginateEngagementReportRows rows).flatten = rows := by
  unfold paginateEngagementReportRows
  rw [paginateGo_flatten]
  simp

theorem paginateGo_empty_page : ∀ (rows current : List PreparedEngagementReportRow) (used : ℚ),
    ∀ page ∈ paginateGo rows current used, page = [] → rows = [] ∧ current = [] := by
  intro rows
  induction rows with
  | nil =>
    intro current used page hp hnil
    by_cases h : current.isEmpty
    · have : current = [] := by simpa using h
      subst this
      exact ⟨rfl, rfl⟩
    · rw [paginateGo, if_neg h] at hp
      simp at hp
      subst hp
      rw [hnil] at h
      simp at h
  | cons row rest ih =>
    intro current used page hp hnil
    rw [paginateGo] at hp
    split at hp
    · rename_i hcond
      rcases List.mem_cons.mp hp with hp | hp
      · rw [hp] at hnil
        rw [hnil] at hcond
        simp at hcond
      · have := ih [row] row.rowHeight page hp hnil
        simp at this
    · have := ih (current ++ [row]) (used + row.rowHeight) page hp hnil
      simp at this

theorem paginateGo_oversized : ∀ (rows current : List PreparedEngagementReportRow) (used : ℚ),
    (∀ r ∈ rows, 0 ≤ r.rowHeight) → (∀ r ∈ current, 0 ≤ r.rowHeight) →
    used = (current.map (fun r => r.rowHeight)).sum →
    (∀ r ∈ current, usableHeight < r.rowHeight → current = [r]) →
    ∀ page ∈ paginateGo rows current used, ∀ r ∈ page,
      usableHeight < r.rowHeight → page = [r] := by
  intro rows
  induction rows with
  | nil =>
    intro current used _ _ _ hinv page hp r hr hover
    by_cases h : current.isEmpty
    · have : current = [] := by simpa using h
      subst this
      rw [paginateGo] at hp
      simp at hp
      subst hp
      simp at hr
    · rw [paginateGo, if_neg h] at hp
      simp at hp
      subst hp
      exact hinv r hr hover
  | cons row rest ih =>
    intro current used hrows hcur hsum hinv page hp r hr hover
    have hrow_nn : 0 ≤ row.rowHeight := hrows row (by simp)
    have hrest_nn : ∀ s ∈ rest, 0 ≤ s.rowHeight := fun s hs => hrows s (by simp [hs])
    rw [paginateGo] at hp
    split at hp
    · rename_i hcond
      rcases List.mem_cons.mp hp with hp | hp
      · subst hp
        exact hinv r hr hover
      · refine ih [row] row.rowHeight hrest_nn ?_ ?_ ?_ page hp r hr hover
        · intro s hs
          simp at hs
          subst hs
          exact hrow_nn
        · simp
        · intro s hs _
          simp at hs
          subst hs
          rfl
    · rename_i hcond
      push_neg at hcond
      refine ih (current ++ [row]) (used + row.rowHeight) hrest_nn ?_ ?_ ?_ page hp r hr hover
      · intro s hs
        rcases List.mem_append.mp hs with hs | hs
        · exact hcur s hs
        · simp at hs
          subst hs
          exact hrow_nn
      · rw [hsum]
        simp
      · intro s hs hsover
        by_cases hz : current = []
        · subst hz
          simp only [List.nil_append] at hs ⊢
          have : s = row := by simpa using hs
          rw [this]
        · have hpos : 0 < current.length := List.length_pos.mpr hz
          have hfit : used + row.rowHeight ≤ usableHeight := hcond hpos
          have hsum_all : ((current ++ [row]).map (fun r => r.rowHeight)).sum
              = used + row.rowHeight := by
            rw [hsum]
            simp
          have hmem_le : s.rowHeight ≤ ((current ++ [row]).map (fun r => r.rowHeight)).sum := by
            apply List.single_le_sum
            · intro x hx
              rw [List.mem_map] at hx
              obtain ⟨a, ha, hax⟩ := hx
              rw [← hax]
              rcases List.mem_append.mp ha with ha2 | ha2
              · exact hcur a ha2
              · have : a = row := by simpa using ha2
                rw [this]
                exact hrow_nn
            · exact List.mem_map_of_mem (fun r => r.rowHeight) hs
          have : s.rowHeight ≤ usableHeight := by
            rw [hsum_all] at hmem_le
            exact le_trans hmem_le hfit
          exact absurd hsover (not_lt.mpr this)

/-- Claim C7: with nonnegative row heights (as produced by
`prepareEngagementReportRows`, whose heights are at least 16), a row whose
height alone exceeds `usableHeight` is still placed, alone on its own page;
no row is dropped or split (the pages concatenate back to the input), and a
new page can only arise non-empty except for the zero-row document. -/
theorem claim_C7_oversized_row (rows : List PreparedEngagementReportRow)
    (hpos : ∀ r ∈ rows, 0 ≤ r.rowHeight) :
    (∀ page ∈ paginateEngagementReportRows rows, ∀ r ∈ page,
        usableHeight < r.rowHeight → page = [r]) ∧
    (paginateEngagementReportRows rows).flatten = rows ∧
    (∀ page ∈ paginateEngagementReportRows rows, page = [] → rows = []) := by
  refine ⟨?_, claim_C3_pagination_preserves_rows rows, ?_⟩
  · intro page hp r hr hover
    exact paginateGo_oversized rows [] 0 hpos (by simp) (by simp) (by simp) page hp r hr hover
  · intro page hp hnil
    exact (paginateGo_empty_page rows [] 0 page hp hnil).1

/-- A concrete short prepared row used in witnesses. -/
def sampleShortRow : PreparedEngagementReportRow :=
  { rowLabel := [], scenario := [], size := [], service := [], «section» := [],
    days := 0, variant := .service, scenarioLines := [], serviceLines := [],
    sectionLines := [], rowHeight := 20 }

/-- A concrete prepared row taller than `usableHeight = 339`. -/
def sampleTallRow : PreparedEngagementReportRow :=
  { rowLabel := [], scenario := [], size := [], service := [], «section» := [],
    days := 0, variant := .service, scenarioLines := [], serviceLines := [],
    sectionLines := [], rowHeight := 400 }

/-- Witness for claim C7 at a concrete two-row input containing an oversized
row. -/
theorem claim_C7_witness :
    (∀ r ∈ [sampleShortRow, sampleTallRow], 0 ≤ r.rowHeight) ∧
    ((∀ page ∈ paginateEngagementReportRows [sampleShortRow, sampleTallRow], ∀ r ∈ page,
        usableHeight < r.rowHeight → page = [r]) ∧
      (paginateEngagementReportRows [sampleShortRow, sampleTallRow]).flatten
        = [sampleShortRow, sampleTallRow] ∧
      (∀ page ∈ paginateEngagementReportRows [sampleShortRow, sampleTallRow], page = [] →
        [sampleShortRow, sampleTallRow] = ([] : List PreparedEngagementReportRow))) := by
  have hpos : ∀ r ∈ [sampleShortRow, sampleTallRow], 0 ≤ r.rowHeight := by
    intro r hr
    rcases List.mem_cons.mp hr with h | h
    · rw [h]
      norm_num [sampleShortRow]
    · have : r = sampleTallRow := by simpa using h
      rw [this]
      norm_num [sampleTallRow]
  exact ⟨hpos, claim_C7_oversized_row _ hpos⟩

/-- Claim C4, amended: with zero input rows the document still has exactly one
page, but that page contains the always-appended grand-total row, not the
"no rows" placeholder: the placeholder branch of
`buildEngagementReportPageStream` is guarded by `if (!rows.length)`
(exporters.ts:914) and the page's row list is nonempty, so the branch is not
taken. -/
theorem claim_C4_amended (result : QuickSizerResult)
    (serviceSummaryByRow : Nat → Option Str)
    (serviceDetailsByRow : Nat → Option (List ServiceDetail))
    (h : result.rows = []) :
    buildEngagementReportRows result serviceSummaryByRow serviceDetailsByRow
      = [grandTotalReportRow result.totals] ∧
    paginateEngagementReportRows (prepareEngagementReportRows
        (buildEngagementReportRows result serviceSummaryByRow serviceDetailsByRow))
      = [prepareEngagementReportRows [grandTotalReportRow result.totals]] ∧
    (paginateEngagementReportRows (prepareEngagementReportRows
        (buildEngagementReportRows result serviceSummaryByRow serviceDetailsByRow))).length = 1 ∧
    (prepareEngagementReportRows [grandTotalReportRow result.totals]).isEmpty = false := by
  have h1 : buildEngagementReportRows result serviceSummaryByRow serviceDetailsByRow
      = [grandTotalReportRow result.totals] := by
    unfold buildEngagementReportRows
    rw [h]
    rfl
  refine ⟨h1, ?_, ?_, rfl⟩
  · rw [h1]
    rfl
  · rw [h1]
    rfl

/-- Witness for the amended claim C4 at a concrete zero-row result. -/
theorem claim_C4_amended_witness :
    ({ rows := [], totals := ⟨0, 0, 0, 0, 0, 0⟩ } : QuickSizerResult).rows = ([] : List SizerRow) ∧
    (buildEngagementReportRows { rows := [], totals := ⟨0, 0, 0, 0, 0, 0⟩ }
        (fun _ => none) (fun _ => none)
      = [grandTotalReportRow ({ rows := [], totals := ⟨0, 0, 0, 0, 0, 0⟩ }
          : QuickSizerResult).totals] ∧
    paginateEngagementReportRows (prepareEngagementReportRows
        (buildEngagementReportRows { rows := [], totals := ⟨0, 0, 0, 0, 0, 0⟩ }
          (fun _ => none) (fun _ => none)))
      = [prepareEngagementReportRows [grandTotalReportRow
          ({ rows := [], totals := ⟨0, 0, 0, 0, 0, 0⟩ } : QuickSizerResult).totals]] ∧
    (paginateEngagementReportRows (prepareEngagementReportRows
        (buildEngagementReportRows { rows := [], totals := ⟨0, 0, 0, 0, 0, 0⟩ }
          (fun _ => none) (fun _ => none)))).length = 1 ∧
    (prepareEngagementReportRows [grandTotalReportRow
        ({ rows := [], totals := ⟨0, 0, 0, 0, 0, 0⟩ } : QuickSizerResult).totals]).isEmpty
      = false) :=
  ⟨rfl, claim_C4_amended _ (fun _ => none) (fun _ => none) rfl⟩

/-! ## Plain-report line wrapping `wrapPdfLines` (exporters.ts:260-292) -/

/-- The `while (rest.length > PDF_MAX_LINE_LENGTH)` loop of `wrapPdfLines`
(exporters.ts:276-288), fuel-bounded like `wrapCellGo`; here the window
threshold is `Math.floor(150 * 0.5) = 75`, exact also over floats. -/
def wrapLongLineGo (fuel : Nat) (rest : Str) : List Str :=
  if rest.length ≤ PDF_MAX_LINE_LENGTH then (if rest.isEmpty then [] else [rest])
  else
    match fuel with
    | 0 => [rest]
    | fuel' + 1 =>
      let cut0 : Int := lastSpaceLE rest PDF_MAX_LINE_LENGTH
      let cut : Int :=
        if cut0 < ((PDF_MAX_LINE_LENGTH / 2 : Nat) : Int) then (PDF_MAX_LINE_LENGTH : Int)
        else cut0
      trimSpaceEnd (rest.take cut.toNat) ::
        wrapLongLineGo fuel' (trimSpaceStart (rest.drop cut.toNat))

/-- `wrapPdfLines` (exporters.ts:260-292): sanitize each raw line; keep empty
lines; split lines longer than 150 characters. -/
def wrapPdfLines (lines : List Str) : List Str :=
  lines.flatMap (fun rawLine =>
    let line := toPdfSafeAscii rawLine
    if line.isEmpty then [[]]
    else if line.length ≤ PDF_MAX_LINE_LENGTH then [line]
    else wrapLongLineGo line.length line)

/-- `buildPdfPageStream` (exporters.ts:294-312): title at
`y = PAGE_HEIGHT - MARGIN_TOP`, then one `Tm`/`Tj` pair per line stepping
down by `PDF_LINE_HEIGHT`. -/
def buildPdfPageStream (title : Str) (lines : List Str) : Str :=
  let y0 : Int := (PDF_PAGE_HEIGHT : Int) - (PDF_MARGIN_TOP : Int)
  let headerCmds : List Str :=
    ["BT".data, "/F1 13 Tf".data,
     "1 0 0 1 ".data ++ natDigits PDF_MARGIN_X ++ " ".data ++ intStr y0 ++ " Tm".data,
     "(".data ++ escapePdfText title ++ ") Tj".data,
     "/F1 9 Tf".data]
  let lineCmds : List Str := lines.enum.flatMap (fun p =>
    ["1 0 0 1 ".data ++ natDigits PDF_MARGIN_X ++ " ".data
       ++ intStr (y0 - (PDF_TITLE_OFFSET : Int) - (PDF_LINE_HEIGHT : Int) * p.1) ++ " Tm".data,
     "(".data ++ escapePdfText p.2 ++ ") Tj".data])
  List.intercalate ("\n".data) (headerCmds ++ lineCmds ++ ["ET".data])

/-! ## The PDF object serializer (exporters.ts:338-404 and 1138-1210)

The two builders duplicate the same serialization block verbatim: assign
bodies to ids in a map, then for id 1..objectCount look the body up (throwing
on a miss), record the byte offset of the `"{id} 0 obj"` line as the length
of the output built so far, and append `"{id} 0 obj\n{body}\nendobj\n"`;
finally append the xref table, trailer, `startxref` and `%%EOF`. -/

/-- One serialized indirect object. -/
def objText (id : Nat) (body : Str) : Str :=
  natDigits id ++ " 0 obj\n".data ++ body ++ "\nendobj\n".data

/-- The `objectBodies` map with `Map.set` semantics (later sets win). -/
def mset (m : Nat → Option Str) (k : Nat) (v : Str) : Nat → Option Str :=
  fun i => if i = k then some v else m i

/-- The serialization loop.  Returns the accumulated output together with the
`(id, offset)` table that feeds the xref section; a missing body is the
`throw new Error("Missing PDF object body for id ...")` branch. -/
def serializeObjects (bodies : Nat → Option Str) :
    Str → List Nat → Except Str (Str × List (Nat × Nat))
  | pdf, [] => .ok (pdf, [])
  | pdf, id :: ids =>
    match bodies id with
    | none => .error ("Missing PDF object body for id ".data ++ natDigits id ++ ".".data)
    | some body =>
      match serializeObjects bodies (pdf ++ objText id body) ids with
      | .error e => .error e
      | .ok (res, offs) => .ok (res, (id, pdf.length) :: offs)

/-- `String(offset).padStart(10, "0")`. -/
def pad10 (n : Nat) : Str := List.replicate (10 - (natDigits n).length) '0' ++ natDigits n

/-- The xref entry lines, one 20-character line per object in id order. -/
def xrefEntries (offs : List (Nat × Nat)) : Str :=
  (offs.map (fun p => pad10 p.2 ++ " 00000 n \n".data)).flatten

/-- The serialization tail shared by both builders: objects, then `xref`,
free entry, entry lines, `trailer` with `/Size = objectCount + 1` and
`/Root 1 0 R`, `startxref` holding the byte offset of the `xref` keyword, and
`%%EOF`. -/
def assemblePdf (bodies : Nat → Option Str) (objectCount : Nat) : Except Str Str :=
  match serializeObjects bodies ("%PDF-1.4\n".data) (List.range' 1 objectCount) with
  | .error e => .error e
  | .ok (body, offs) =>
    .ok (body ++ "xref\n0 ".data ++ natDigits (objectCount + 1) ++ "\n".data
      ++ "0000000000 65535 f \n".data ++ xrefEntries offs
      ++ "trailer\n<< /Size ".data ++ natDigits (objectCount + 1) ++ " /Root 1 0 R >>\n".data
      ++ "startxref\n".data ++ natDigits body.length ++ "\n%%EOF\n".data)

/-! Object bodies of the plain builder (exporters.ts:338-380). -/

def catalogBody : Str := "<< /Type /Catalog /Pages 2 0 R >>".data

def pagesKidsBody (pageObjectIds : List Nat) (count : Nat) : Str :=
  "<< /Type /Pages /Kids [".data
    ++ List.intercalate (" ".data) (pageObjectIds.map (fun id => natDigits id ++ " 0 R".data))
    ++ "] /Count ".data ++ natDigits count ++ " >>".data

/-- Ids from the allocation loop: `nextObjectId` starts at 3 and advances by
two per page (page object, then content object), so page `i` gets `3 + 2i`,
its content `4 + 2i`, and the id left after the loop is `3 + 2n`. -/
def simplePageObjectId (i : Nat) : Nat := 3 + 2 * i
def simpleContentObjectId (i : Nat) : Nat := 4 + 2 * i
def simpleFontObjectId (n : Nat) : Nat := 3 + 2 * n

def simplePageBody (fontObjectId contentObjectId : Nat) : Str :=
  "<< /Type /Page /Parent 2 0 R /MediaBox [0 0 ".data ++ natDigits PDF_PAGE_WIDTH
    ++ " ".data ++ natDigits PDF_PAGE_HEIGHT
    ++ "] /Resources << /Font << /F1 ".data ++ natDigits fontObjectId
    ++ " 0 R >> >> /Contents ".data ++ natDigits contentObjectId ++ " 0 R >>".data

def helveticaBody : Str := "<< /Type /Font /Subtype /Type1 /BaseFont /Helvetica >>".data

def helveticaBoldBody : Str := "<< /Type /Font /Subtype /Type1 /BaseFont /Helvetica-Bold >>".data

/-- A content-stream object body: `/Length` is the byte length of the
stream payload (exporters.ts:371-374 and 1172-1175). -/
def contentObjBody (stream : Str) : Str :=
  "<< /Length ".data ++ natDigits stream.length ++ " >>\nstream\n".data
    ++ stream ++ "\nendstream".data

/-- The per-page title `"{title} (Page {i+1}/{n})"` used when there is more
than one page (exporters.ts:358-361). -/
def simplePageTitle (title : Str) (n i : Nat) : Str :=
  if 1 < n then
    title ++ " (Page ".data ++ natDigits (i + 1) ++ "/".data ++ natDigits n ++ ")".data
  else title

/-- The `objectBodies` map of `buildSimplePdf` (exporters.ts:350-380): set 1
(Catalog) and 2 (Pages), then per page the page and content objects, then the
font object. -/
def simpleObjectBodies (title : Str) (pages : List (List Str)) : Nat → Option Str :=
  mset
    ((List.range pages.length).foldl (fun m i =>
      mset (mset m (simplePageObjectId i)
          (simplePageBody (simpleFontObjectId pages.length) (simpleContentObjectId i)))
        (simpleContentObjectId i)
        (contentObjBody (buildPdfPageStream (simplePageTitle title pages.length i)
          (pages.getD i []))))
      (mset (mset (fun _ => none) 1 catalogBody) 2
        (pagesKidsBody ((List.range pages.length).map simplePageObjectId) pages.length)))
    (simpleFontObjectId pages.length) helveticaBody

/-- The page chunking loop of `buildSimplePdf` (exporters.ts:330-333),
fuel-bounded; `size ≥ 1` at the call site (`Math.max(1, ...)`). -/
def chunkPagesGo : Nat → Nat → List Str → List (List Str)
  | _, _, [] => []
  | 0, _, l => [l]
  | fuel + 1, size, l => l.take size :: chunkPagesGo fuel size (l.drop size)

def chunkPages (size : Nat) (l : List Str) : List (List Str) := chunkPagesGo l.length size l

/-- `linesPerPage` (exporters.ts:319-328): `max(1, floor(513 / 12)) = 42`. -/
def simpleLinesPerPage : Nat :=
  max 1 ((PDF_PAGE_HEIGHT - PDF_MARGIN_TOP - PDF_MARGIN_BOTTOM - PDF_TITLE_OFFSET)
    / PDF_LINE_HEIGHT)

/-- The page list of `buildSimplePdf` (exporters.ts:330-336): chunks of
`linesPerPage` wrapped lines, with one empty page when there are none. -/
def simplePagesOf (lines : List Str) : List (List Str) :=
  if (chunkPages simpleLinesPerPage (wrapPdfLines lines)).isEmpty then [[]]
  else chunkPages simpleLinesPerPage (wrapPdfLines lines)

/-- `buildSimplePdf` (exporters.ts:314-405). -/
def buildSimplePdf (title : Str) (lines : List Str) : Except Str Str :=
  assemblePdf (simpleObjectBodies title (simplePagesOf lines))
    (simpleFontObjectId (simplePagesOf lines).length)

/-! Object bodies of the two-font builder (exporters.ts:1138-1210). -/

def twoFontRegularId (n : Nat) : Nat := 3 + 2 * n
def twoFontBoldId (n : Nat) : Nat := 4 + 2 * n

def twoFontPageBody (regId boldId contentObjectId : Nat) : Str :=
  "<< /Type /Page /Parent 2 0 R /MediaBox [0 0 ".data ++ natDigits PDF_PAGE_WIDTH
    ++ " ".data ++ natDigits PDF_PAGE_HEIGHT
    ++ "] /Resources << /Font << /F1 ".data ++ natDigits regId
    ++ " 0 R /F2 ".data ++ natDigits boldId
    ++ " 0 R >> >> /Contents ".data ++ natDigits contentObjectId ++ " 0 R >>".data

/-- The `objectBodies` map of `buildPdfWithTwoFonts` (exporters.ts:1155-1185). -/
def twoFontObjectBodies (pageStreams : List Str) : Nat → Option Str :=
  mset
    (mset
      ((List.range pageStreams.length).foldl (fun m i =>
        mset (mset m (simplePageObjectId i)
            (twoFontPageBody (twoFontRegularId pageStreams.length)
              (twoFontBoldId pageStreams.length) (simpleContentObjectId i)))
          (simpleContentObjectId i)
          (contentObjBody (pageStreams.getD i [])))
        (mset (mset (fun _ => none) 1 catalogBody) 2
          (pagesKidsBody ((List.range pageStreams.length).map simplePageObjectId)
            pageStreams.length)))
      (twoFontRegularId pageStreams.length) helveticaBody)
    (twoFontBoldId pageStreams.length) helveticaBoldBody

/-- `buildPdfWithTwoFonts` (exporters.ts:1138-1210); `objectCount` is the
bold font's id `4 + 2n`. -/
def buildPdfWithTwoFonts (pageStreams : List Str) : Except Str Str :=
  assemblePdf (twoFontObjectBodies pageStreams) (twoFontBoldId pageStreams.length)

/-! ### Coverage of the object-body maps (claim C9) -/

theorem mset_self (m : Nat → Option Str) (k : Nat) (v : Str) : mset m k v k = some v := by
  simp [mset]

theorem mset_other (m : Nat → Option Str) (k : Nat) (v : Str) (i : Nat) (h : i ≠ k) :
    mset m k v i = m i := by
  simp [mset, h]

theorem mset_isSome_of (m : Nat → Option Str) (k : Nat) (v : Str) (i : Nat)
    (h : (m i).isSome) : ((mset m k v) i).isSome := by
  unfold mset
  split
  · rfl
  · exact h

/-- The per-page `objectBodies.set` fold preserves already-present keys. -/
theorem foldl_mset2_preserve (p q : Nat → Nat) (A B : Nat → Str) :
    ∀ (l : List Nat) (m : Nat → Option Str) (j : Nat), (m j).isSome →
      ((l.foldl (fun m i => mset (mset m (p i) (A i)) (q i) (B i)) m) j).isSome := by
  intro l
  induction l with
  | nil => intro m j h; exact h
  | cons a t ih =>
    intro m j h
    exact ih _ j (mset_isSome_of _ _ _ _ (mset_isSome_of _ _ _ _ h))

/-- The per-page fold defines both keys of every visited index. -/
theorem foldl_mset2_mem (p q : Nat → Nat) (A B : Nat → Str) :
    ∀ (l : List Nat) (m : Nat → Option Str) (i : Nat), i ∈ l →
      ((l.foldl (fun m i => mset (mset m (p i) (A i)) (q i) (B i)) m) (p i)).isSome ∧
      ((l.foldl (fun m i => mset (mset m (p i) (A i)) (q i) (B i)) m) (q i)).isSome := by
  intro l
  induction l with
  | nil => intro m i h; simp at h
  | cons a t ih =>
    intro m i h
    rcases List.mem_cons.mp h with h | h
    · subst h
      rw [List.foldl_cons]
      constructor
      · apply foldl_mset2_preserve
        unfold mset
        split
        · rfl
        · simp
      · apply foldl_mset2_preserve
        unfold mset
        simp
    · rw [List.foldl_cons]
      exact ih _ i h

/-- Every id in `[1, 3 + 2n]` has a body in the plain builder's map. -/
theorem simpleObjectBodies_isSome (title : Str) (pages : List (List Str)) (id : Nat)
    (h1 : 1 ≤ id) (h2 : id ≤ simpleFontObjectId pages.length) :
    ((simpleObjectBodies title pages) id).isSome := by
  unfold simpleObjectBodies simpleFontObjectId
  by_cases hfont : id = 3 + 2 * pages.length
  · subst hfont
    simp [mset_self]
  · rw [mset_other _ _ _ _ hfont]
    by_cases h12 : id = 1 ∨ id = 2
    · apply foldl_mset2_preserve
      rcases h12 with h | h
      · subst h
        rw [mset_other _ _ _ _ (by omega)]
        simp [mset_self]
      · subst h
        simp [mset_self]
    · push_neg at h12
      unfold simpleFontObjectId at h2
      have h3 : 3 ≤ id := by omega
      have h4 : id ≤ 2 + 2 * pages.length := by omega
      rcases Nat.even_or_odd id with he | ho
      · -- even: a content object id 4 + 2i
        obtain ⟨k, hk⟩ := he
        have hid : id = simpleContentObjectId (k - 2) := by
          unfold simpleContentObjectId
          omega
        rw [hid]
        refine (foldl_mset2_mem simplePageObjectId simpleContentObjectId _ _
          (List.range pages.length) _ (k - 2) ?_).2
        rw [List.mem_range]
        unfold simpleContentObjectId at hid
        omega
      · -- odd: a page object id 3 + 2i
        obtain ⟨k, hk⟩ := ho
        have hid : id = simplePageObjectId (k - 1) := by
          unfold simplePageObjectId
          omega
        rw [hid]
        refine (foldl_mset2_mem simplePageObjectId simpleContentObjectId _ _
          (List.range pages.length) _ (k - 1) ?_).1
        rw [List.mem_range]
        unfold simplePageObjectId at hid
        omega

/-- Every id in `[1, 4 + 2n]` has a body in the two-font builder's map. -/
theorem twoFontObjectBodies_isSome (pageStreams : List Str) (id : Nat)
    (h1 : 1 ≤ id) (h2 : id ≤ twoFontBoldId pageStreams.length) :
    ((twoFontObjectBodies pageStreams) id).isSome := by
  unfold twoFontObjectBodies twoFontBoldId twoFontRegularId
  by_cases hbold : id = 4 + 2 * pageStreams.length
  · subst hbold
    simp [mset_self]
  · rw [mset_other _ _ _ _ hbold]
    by_cases hreg : id = 3 + 2 * pageStreams.length
    · subst hreg
      simp [mset_self]
    · rw [mset_other _ _ _ _ hreg]
      by_cases h12 : id = 1 ∨ id = 2
      · apply foldl_mset2_preserve
        rcases h12 with h | h
        · subst h
          rw [mset_other _ _ _ _ (by omega)]
          simp [mset_self]
        · subst h
          simp [mset_self]
      · push_neg at h12
        unfold twoFontBoldId at h2
        have h3 : 3 ≤ id := by omega
        have h4 : id ≤ 2 + 2 * pageStreams.length := by omega
        rcases Nat.even_or_odd id with he | ho
        · obtain ⟨k, hk⟩ := he
          have hid : id = simpleContentObjectId (k - 2) := by
            unfold simpleContentObjectId
            omega
          rw [hid]
          refine (foldl_mset2_mem simplePageObjectId simpleContentObjectId _ _
            (List.range pageStreams.length) _ (k - 2) ?_).2
          rw [List.mem_range]
          unfold simpleContentObjectId at hid
          omega
        · obtain ⟨k, hk⟩ := ho
          have hid : id = simplePageObjectId (k - 1) := by
            unfold simplePageObjectId
            omega
          rw [hid]
          refine (foldl_mset2_mem simplePageObjectId simpleContentObjectId _ _
            (List.range pageStreams.length) _ (k - 1) ?_).1
          rw [List.mem_range]
          unfold simplePageObjectId at hid
          omega

/-- When every visited id has a body, the serialization loop succeeds. -/
theorem serializeObjects_isOk (bodies : Nat → Option Str) :
    ∀ (ids : List Nat) (pdf : Str), (∀ id ∈ ids, (bodies id).isSome) →
      ∃ res offs, serializeObjects bodies pdf ids = .ok (res, offs) := by
  intro ids
  induction ids with
  | nil =>
    intro pdf _
    exact ⟨pdf, [], rfl⟩
  | cons id t ih =>
    intro pdf hall
    have hsome : (bodies id).isSome := hall id (by simp)
    obtain ⟨body, hbody⟩ := Option.isSome_iff_exists.mp hsome
    obtain ⟨res, offs, hrec⟩ := ih (pdf ++ objText id body) (fun j hj => hall j (by simp [hj]))
    refine ⟨res, (id, pdf.length) :: offs, ?_⟩
    unfold serializeObjects
    rw [hbody]
    simp [hrec]

/-- Claim C9: for every input, every object id in `[1, objectCount]` has a
body before the serialization loop runs, so the
`"Missing PDF object body"` branch is unreachable and both builders always
return a document (never throw). -/
theorem claim_C9_no_missing_body :
    (∀ (title : Str) (lines : List Str), ∃ pdf, buildSimplePdf title lines = .ok pdf) ∧
    (∀ pageStreams : List Str, ∃ pdf, buildPdfWithTwoFonts pageStreams = .ok pdf) := by
  constructor
  · intro title lines
    unfold buildSimplePdf assemblePdf
    obtain ⟨res, offs, hok⟩ := serializeObjects_isOk
      (simpleObjectBodies title (simplePagesOf lines))
      (List.range' 1 (simpleFontObjectId (simplePagesOf lines).length)) ("%PDF-1.4\n".data)
      (fun id hid => by
        rw [List.mem_range'_1] at hid
        exact simpleObjectBodies_isSome title (simplePagesOf lines) id hid.1 (by omega))
    rw [hok]
    simp
  · intro pageStreams
    unfold buildPdfWithTwoFonts assemblePdf
    obtain ⟨res, offs, hok⟩ := serializeObjects_isOk
      (twoFontObjectBodies pageStreams)
      (List.range' 1 (twoFontBoldId pageStreams.length)) ("%PDF-1.4\n".data)
      (fun id hid => by
        rw [List.mem_range'_1] at hid
        exact twoFontObjectBodies_isSome pageStreams id hid.1 (by omega))
    rw [hok]
    simp

/-! ## An xref round-trip checker (claim C1)

`pdfXrefOk` re-reads a finished file the way the claim describes: it parses
the trailing `startxref` offset, seeks there expecting the `xref` keyword,
reads the entry count from the `0 {count+1}` subsection header, checks the
mandatory free entry, then walks the 20-byte entries; for each id it parses
the 10-digit offset, seeks to that byte position from byte 0 and demands the
bytes `"{id} 0 obj"`, and finally demands a trailer declaring the same
`/Size`. -/

/-- Strips a known suffix, returning the rest. -/
def dropSuffixQ (suf s : Str) : Option Str :=
  if suf.isSuffixOf s then some (s.take (s.length - suf.length)) else none

/-- Parses the `startxref\n{offset}\n%%EOF\n` tail of a PDF file. -/
def readStartxref (pdf : Str) : Option Nat :=
  match dropSuffixQ ("\n%%EOF\n".data) pdf with
  | none => none
  | some s1 =>
    if ((s1.reverse.takeWhile Char.isDigit).reverse).isEmpty then none
    else
      match dropSuffixQ ("startxref\n".data ++ (s1.reverse.takeWhile Char.isDigit).reverse) s1 with
      | none => none
      | some _ => some (digitsToNat ((s1.reverse.takeWhile Char.isDigit).reverse))

/-- Parses `xref\n0 {size}\n` and the mandatory free entry, returning the
parsed size together with what follows (the entry lines). -/
def readXrefHeader (s : Str) : Option (Nat × Str) :=
  if ("xref\n0 ".data).isPrefixOf s then
    if ((s.drop 7).takeWhile Char.isDigit).isEmpty then none
    else
      if ("\n0000000000 65535 f \n".data).isPrefixOf
          ((s.drop 7).drop ((s.drop 7).takeWhile Char.isDigit).length) then
        some (digitsToNat ((s.drop 7).takeWhile Char.isDigit),
          (((s.drop 7).drop ((s.drop 7).takeWhile Char.isDigit).length)).drop 21)
      else none
  else none

/-- Walks `count` xref entry lines: each is a 10-digit offset, the fixed
`" 00000 n \n"` tail, and seeking to the parsed offset must find
`"{id} 0 obj"`. -/
def checkEntries (pdf : Str) : Str → Nat → Nat → Bool
  | _, _, 0 => true
  | s, id, k + 1 =>
    ((s.take 20).take 10).all Char.isDigit
    && ((s.take 20).drop 10 == " 00000 n \n".data)
    && ((natDigits id ++ " 0 obj".data).isPrefixOf
        (pdf.drop (digitsToNat ((s.take 20).take 10))))
    && checkEntries pdf (s.drop 20) (id + 1) k

/-- The size parsed back from the file (used to state `/Size = count + 1`). -/
def readXrefSize (pdf : Str) : Option Nat :=
  match readStartxref pdf with
  | none => none
  | some xo =>
    match readXrefHeader (pdf.drop xo) with
    | none => none
    | some p => some p.1

/-- The complete round-trip check of claim C1. -/
def pdfXrefOk (pdf : Str) : Bool :=
  match readStartxref pdf with
  | none => false
  | some xo =>
    match readXrefHeader (pdf.drop xo) with
    | none => false
    | some p =>
      checkEntries pdf p.2 1 (p.1 - 1)
      && (("trailer\n<< /Size ".data ++ natDigits p.1).isPrefixOf (p.2.drop (20 * (p.1 - 1))))

/-! ### Generic facts used by the round-trip proof -/

theorem dropSuffixQ_append (suf r : Str) : dropSuffixQ suf (r ++ suf) = some r := by
  unfold dropSuffixQ
  have hs : suf.isSuffixOf (r ++ suf) = true := by
    rw [List.isSuffixOf_iff_suffix]
    exact List.suffix_append r suf
  rw [if_pos hs]
  congr 1
  have : (r ++ suf).length - suf.length = r.length := by simp
  rw [this, List.take_left]

theorem takeWhile_all_append (q : Char → Bool) (l₁ l₂ : Str) (h : ∀ x ∈ l₁, q x = true) :
    (l₁ ++ l₂).takeWhile q = l₁ ++ l₂.takeWhile q := by
  induction l₁ with
  | nil => simp
  | cons a t ih =>
    have ha : q a = true := h a (by simp)
    simp [List.takeWhile_cons, ha, ih (fun x hx => h x (by simp [hx]))]

theorem takeWhile_cons_neg (q : Char → Bool) (c : Char) (t : Str) (h : q c = false) :
    (c :: t).takeWhile q = [] := by
  simp [List.takeWhile_cons, h]

/-- The trailing digit run of `p ++ [c] ++ d` is exactly `d` when `d` is all
digits and `c` is not a digit. -/
theorem rev_digit_run (p d : Str) (c : Char)
    (hd : ∀ x ∈ d, x.isDigit = true) (hc : c.isDigit = false) :
    ((p ++ [c] ++ d).reverse.takeWhile Char.isDigit).reverse = d := by
  have h1 : (p ++ [c] ++ d).reverse = d.reverse ++ c :: p.reverse := by
    simp
  rw [h1]
  rw [takeWhile_all_append Char.isDigit d.reverse (c :: p.reverse)
    (fun x hx => hd x (by simpa using hx))]
  rw [takeWhile_cons_neg Char.isDigit c p.reverse hc]
  simp

theorem pad10_length (n : Nat) (h : (natDigits n).length ≤ 10) : (pad10 n).length = 10 := by
  unfold pad10
  simp
  omega

theorem pad10_all_digit (n : Nat) : (pad10 n).all Char.isDigit = true := by
  unfold pad10
  rw [List.all_append, Bool.and_eq_true]
  constructor
  · rw [List.all_eq_true]
    intro c hc
    have : c = '0' := List.eq_of_mem_replicate hc
    subst this
    decide
  · rw [List.all_eq_true]
    exact natDigits_all_digit n

theorem digitsToNat_pad10 (n : Nat) : digitsToNat (pad10 n) = n := by
  unfold pad10
  rw [digitsToNat_replicate_zero, digitsToNat_natDigits]

theorem xrefEntries_length (offs : List (Nat × Nat))
    (h : ∀ p ∈ offs, (natDigits p.2).length ≤ 10) :
    (xrefEntries offs).length = 20 * offs.length := by
  induction offs with
  | nil => rfl
  | cons a t ih =>
    unfold xrefEntries at ih ⊢
    simp only [List.map_cons, List.flatten_cons, List.length_append]
    rw [ih (fun p hp => h p (by simp [hp]))]
    have := pad10_length a.2 (h a (by simp))
    simp only [List.length_append, this]
    have hfix : (" 00000 n \n".data).length = 10 := by decide
    rw [hfix]
    simp
    ring

/-- The serialization loop only appends to the accumulated output. -/
theorem serializeObjects_prefix (bodies : Nat → Option Str) :
    ∀ (ids : List Nat) (pdf res : Str) (offs : List (Nat × Nat)),
      serializeObjects bodies pdf ids = .ok (res, offs) → pdf <+: res := by
  intro ids
  induction ids with
  | nil =>
    intro pdf res offs h
    unfold serializeObjects at h
    injection h with h
    injection h with h1 h2
    exact h1 ▸ List.prefix_refl pdf
  | cons id t ih =>
    intro pdf res offs h
    unfold serializeObjects at h
    cases hb : bodies id with
    | none => rw [hb] at h; exact absurd h (by simp)
    | some body =>
      rw [hb] at h
      have h2 : (match serializeObjects bodies (pdf ++ objText id body) t with
        | Except.error e => Except.error e
        | Except.ok (res2, offs2) => Except.ok (res2, (id, pdf.length) :: offs2))
          = Except.ok (res, offs) := h
      cases hrec : serializeObjects bodies (pdf ++ objText id body) t with
      | error e => rw [hrec] at h2; exact absurd h2 (by simp)
      | ok pr =>
        obtain ⟨res2, offs2⟩ := pr
        rw [hrec] at h2
        simp at h2
        have hpre := ih (pdf ++ objText id body) res2 offs2 hrec
        rw [← h2.1]
        exact (List.prefix_append pdf (objText id body)).trans hpre

/-- Offsets recorded by the loop: the ids come out in input order, and
seeking to each offset inside the final output finds that object's
serialization. -/
theorem serializeObjects_spec (bodies : Nat → Option Str) :
    ∀ (ids : List Nat) (pdf res : Str) (offs : List (Nat × Nat)),
      serializeObjects bodies pdf ids = .ok (res, offs) →
      offs.map Prod.fst = ids ∧
      ∀ p ∈ offs, ∃ body suffix, bodies p.1 = some body ∧
        res.drop p.2 = objText p.1 body ++ suffix ∧
        p.2 + (objText p.1 body).length ≤ res.length := by
  intro ids
  induction ids with
  | nil =>
    intro pdf res offs h
    unfold serializeObjects at h
    injection h with h
    injection h with h1 h2
    subst h1
    rw [← h2]
    exact ⟨rfl, by simp⟩
  | cons id t ih =>
    intro pdf res offs h
    unfold serializeObjects at h
    cases hb : bodies id with
    | none => rw [hb] at h; exact absurd h (by simp)
    | some body =>
      rw [hb] at h
      have h2 : (match serializeObjects bodies (pdf ++ objText id body) t with
        | Except.error e => Except.error e
        | Except.ok (res2, offs2) => Except.ok (res2, (id, pdf.length) :: offs2))
          = Except.ok (res, offs) := h
      cases hrec : serializeObjects bodies (pdf ++ objText id body) t with
      | error e => rw [hrec] at h2; exact absurd h2 (by simp)
      | ok pr =>
        obtain ⟨res2, offs2⟩ := pr
        rw [hrec] at h2
        simp at h2
        obtain ⟨hres, hoffs⟩ := h2
        obtain ⟨hmap, hspec⟩ := ih (pdf ++ objText id body) res2 offs2 hrec
        have hpre := serializeObjects_prefix bodies t (pdf ++ objText id body) res2 offs2 hrec
        obtain ⟨tail2, htail⟩ := hpre
        subst hres
        rw [← hoffs]
        constructor
        · simp [hmap]
        · intro p hp
          rcases List.mem_cons.mp hp with hp | hp
          · subst hp
            refine ⟨body, objText id body ++ tail2 ++ [] |>.drop (objText id body).length, hb, ?_, ?_⟩
            · rw [← htail, List.append_assoc]
              rw [List.drop_left]
              simp
            · rw [← htail]
              simp
          · exact hspec p hp

theorem isPrefixOf_append_self (l r : Str) : l.isPrefixOf (l ++ r) = true := by
  rw [List.isPrefixOf_iff_prefix]
  exact List.prefix_append l r

theorem drop_append_of_le (n : Nat) (l₁ l₂ : Str) (h : n ≤ l₁.length) :
    (l₁ ++ l₂).drop n = l₁.drop n ++ l₂ := by
  rw [List.drop_append_eq_append_drop]
  rw [Nat.sub_eq_zero_of_le h]
  rfl

/-- Walking the entry lines of a well-formed offset table succeeds. -/
theorem checkEntries_append (pdf : Str) :
    ∀ (offs : List (Nat × Nat)) (tail : Str) (startId : Nat),
      offs.map Prod.fst = List.range' startId offs.length →
      (∀ p ∈ offs, (natDigits p.1 ++ " 0 obj".data).isPrefixOf (pdf.drop p.2) = true ∧
        (natDigits p.2).length ≤ 10) →
      checkEntries pdf (xrefEntries offs ++ tail) startId offs.length = true := by
  intro offs
  induction offs with
  | nil => intro tail startId _ _; rfl
  | cons a t ih =>
    intro tail startId hmap hall
    obtain ⟨id, off⟩ := a
    simp only [List.map_cons, List.length_cons, List.range'_succ] at hmap
    have hid : id = startId := (List.cons.injEq _ _ _ _).mp hmap |>.1
    have hmapt : t.map Prod.fst = List.range' (startId + 1) t.length :=
      (List.cons.injEq _ _ _ _).mp hmap |>.2
    have hhead := hall (id, off) (by simp)
    have hp10len : (pad10 off).length = 10 := pad10_length off hhead.2
    have hblock : xrefEntries ((id, off) :: t)
        = (pad10 off ++ " 00000 n \n".data) ++ xrefEntries t := by
      simp [xrefEntries]
    have hblen : (pad10 off ++ " 00000 n \n".data).length = 20 := by
      simp [hp10len]
    rw [hblock, List.append_assoc]
    show checkEntries pdf _ startId (t.length + 1) = true
    unfold checkEntries
    have htake : ((pad10 off ++ " 00000 n \n".data) ++ (xrefEntries t ++ tail)).take 20
        = pad10 off ++ " 00000 n \n".data := by
      rw [← hblen, List.take_left]
    have hdrop : ((pad10 off ++ " 00000 n \n".data) ++ (xrefEntries t ++ tail)).drop 20
        = xrefEntries t ++ tail := by
      rw [← hblen, List.drop_left]
    rw [htake, hdrop]
    have htake10 : (pad10 off ++ " 00000 n \n".data).take 10 = pad10 off := by
      rw [← hp10len, List.take_left]
    have hdrop10 : (pad10 off ++ " 00000 n \n".data).drop 10 = " 00000 n \n".data := by
      rw [← hp10len, List.drop_left]
    rw [htake10, hdrop10]
    simp only [Bool.and_eq_true]
    refine ⟨⟨⟨pad10_all_digit off, by simp⟩, ?_⟩, ?_⟩
    · rw [digitsToNat_pad10]
      rw [← hid]
      exact hhead.1
    · rw [← hid] at hmapt
      exact ih (tail) (startId + 1) (hid ▸ hmapt) (fun p hp => hall p (by simp [hp]))

/-- The central correctness theorem of the serializer: any file assembled by
the shared serialization tail passes the xref round-trip check, and its
parsed `/Size` is `objectCount + 1`.  The `10 ^ 10` bound keeps every offset
within the 10 digits of a PDF xref entry; Node strings are orders of
magnitude shorter than that. -/
theorem assemblePdf_checker (bodies : Nat → Option Str) (objectCount : Nat) (pdf : Str)
    (hok : assemblePdf bodies objectCount = .ok pdf) (hlen : pdf.length ≤ 10 ^ 10) :
    pdfXrefOk pdf = true ∧ readXrefSize pdf = some (objectCount + 1) := by
  unfold assemblePdf at hok
  cases hser : serializeObjects bodies ("%PDF-1.4\n".data) (List.range' 1 objectCount) with
  | error e => rw [hser] at hok; exact absurd hok (by simp)
  | ok pr =>
    obtain ⟨body, offs⟩ := pr
    rw [hser] at hok
    injection hok with hok
    obtain ⟨hmap, hspec⟩ := serializeObjects_spec bodies _ _ _ _ hser
    have hcount : offs.length = objectCount := by
      have := congrArg List.length hmap
      simpa using this
    -- every recorded offset is strictly inside the object section
    have hofflt : ∀ p ∈ offs, p.2 < body.length := by
      intro p hp
      obtain ⟨b, suffix, _, _, hle⟩ := hspec p hp
      have hpos : 1 ≤ (objText p.1 b).length := by
        unfold objText
        have := natDigits_ne_nil p.1
        have h1 : 1 ≤ (natDigits p.1).length := List.length_pos.mpr this
        simp
        omega
      omega
    obtain ⟨tailT, hpdf2⟩ : ∃ t, pdf = body ++ t := by
      refine ⟨"xref\n0 ".data ++ (natDigits (objectCount + 1) ++ ("\n".data
        ++ ("0000000000 65535 f \n".data ++ (xrefEntries offs
        ++ ("trailer\n<< /Size ".data ++ (natDigits (objectCount + 1)
        ++ (" /Root 1 0 R >>\n".data ++ ("startxref\n".data
        ++ (natDigits body.length ++ "\n%%EOF\n".data))))))))), ?_⟩
      rw [← hok]
      simp [List.append_assoc]
    have hbodylen : body.length ≤ pdf.length := by
      rw [hpdf2]
      simp
    have hdigle : ∀ p ∈ offs, (natDigits p.2).length ≤ 10 := by
      intro p hp
      exact natDigits_length_le p.2 10 (by omega) (by
        have := hofflt p hp
        omega)
    -- seeking inside the final file finds each object header
    have hseek : ∀ p ∈ offs, (natDigits p.1 ++ " 0 obj".data).isPrefixOf (pdf.drop p.2) = true := by
      intro p hp
      obtain ⟨b, suffix, _, hdropb, hle⟩ := hspec p hp
      have hplt := hofflt p hp
      rw [hpdf2]
      rw [drop_append_of_le p.2 _ _ (by omega)]
      rw [hdropb]
      rw [List.isPrefixOf_iff_prefix]
      have hobj : objText p.1 b
          = (natDigits p.1 ++ " 0 obj".data) ++ ('\n' :: (b ++ "\nendobj\n".data)) := by
        unfold objText
        simp
      refine ⟨('\n' :: (b ++ "\nendobj\n".data)) ++ (suffix ++ tailT), ?_⟩
      rw [hobj]
      simp [List.append_assoc]
    -- names for the tail components
    set S : Str := natDigits (objectCount + 1) with hSdef
    set D : Str := natDigits body.length with hDdef
    set TR : Str := "trailer\n<< /Size ".data ++ (S ++ (" /Root 1 0 R >>\n".data
      ++ ("startxref\n".data ++ (D ++ "\n%%EOF\n".data)))) with hTRdef
    set X : Str := xrefEntries offs ++ TR with hXdef
    set R : Str := "\n0000000000 65535 f \n".data ++ X with hRdef
    set P : Str := body ++ ("xref\n0 ".data ++ (S ++ ("\n0000000000 65535 f \n".data
      ++ (xrefEntries offs ++ ("trailer\n<< /Size ".data ++ (S
      ++ (" /Root 1 0 R >>\n".data ++ "startxref".data))))))) with hPdef
    -- the file, re-associated around the startxref tail
    have heof : pdf = ((P ++ ['\n']) ++ D) ++ "\n%%EOF\n".data := by
      rw [← hok, hPdef, hDdef]
      have hsx : "startxref\n".data = "startxref".data ++ ['\n'] := rfl
      rw [hsx]
      simp [List.append_assoc]
    -- parse the startxref offset
    have hd1 : dropSuffixQ ("\n%%EOF\n".data) pdf = some ((P ++ ['\n']) ++ D) := by
      rw [heof]
      exact dropSuffixQ_append _ _
    have hd2 : ((((P ++ ['\n']) ++ D).reverse).takeWhile Char.isDigit).reverse = D := by
      rw [hDdef]
      exact rev_digit_run P _ '\n' (natDigits_all_digit body.length) (by decide)
    have hd4 : D.isEmpty = false := by
      rw [hDdef]
      cases hD : natDigits body.length with
      | nil => exact absurd hD (natDigits_ne_nil body.length)
      | cons c t => rfl
    have hd3 : dropSuffixQ ("startxref\n".data ++ D) ((P ++ ['\n']) ++ D)
        = some (body ++ ("xref\n0 ".data ++ (S ++ ("\n0000000000 65535 f \n".data
          ++ (xrefEntries offs ++ ("trailer\n<< /Size ".data ++ (S
          ++ " /Root 1 0 R >>\n".data))))))) := by
      have hsp : (P ++ ['\n']) ++ D
          = (body ++ ("xref\n0 ".data ++ (S ++ ("\n0000000000 65535 f \n".data
            ++ (xrefEntries offs ++ ("trailer\n<< /Size ".data ++ (S
            ++ " /Root 1 0 R >>\n".data))))))) ++ ("startxref\n".data ++ D) := by
        rw [hPdef]
        have hsx : "startxref\n".data = "startxref".data ++ ['\n'] := rfl
        rw [hsx]
        simp [List.append_assoc]
      rw [hsp]
      exact dropSuffixQ_append _ _
    have hsxr : readStartxref pdf = some body.length := by
      simp only [readStartxref, hd1, hd2, hd4, hd3, Bool.false_eq_true, if_false, hDdef,
        digitsToNat_natDigits]
    -- seek to the startxref offset: the xref keyword and its header
    have hdropxo : pdf.drop body.length = "xref\n0 ".data ++ (S ++ R) := by
      rw [← hok, hRdef, hXdef, hTRdef]
      rw [show body ++ "xref\n0 ".data ++ S ++ "\n".data
          ++ "0000000000 65535 f \n".data ++ xrefEntries offs
          ++ "trailer\n<< /Size ".data ++ S
          ++ " /Root 1 0 R >>\n".data ++ "startxref\n".data
          ++ D ++ "\n%%EOF\n".data
        = body ++ ("xref\n0 ".data ++ (S ++ ("\n".data ++ ("0000000000 65535 f \n".data
          ++ (xrefEntries offs ++ ("trailer\n<< /Size ".data ++ (S
          ++ (" /Root 1 0 R >>\n".data ++ ("startxref\n".data
          ++ (D ++ "\n%%EOF\n".data)))))))))) from by simp [List.append_assoc]]
      rw [List.drop_left]
      rfl
    have hx1 : ("xref\n0 ".data).isPrefixOf ("xref\n0 ".data ++ (S ++ R)) = true :=
      isPrefixOf_append_self _ _
    have hx2 : ("xref\n0 ".data ++ (S ++ R)).drop 7 = S ++ R := by
      rw [show (7 : Nat) = ("xref\n0 ".data).length from rfl, List.drop_left]
    have hRtw : R.takeWhile Char.isDigit = [] := by
      rw [hRdef]
      rw [show "\n0000000000 65535 f \n".data ++ X
        = '\n' :: ("0000000000 65535 f \n".data ++ X) from rfl]
      exact takeWhile_cons_neg _ _ _ (by decide)
    have hx3 : (S ++ R).takeWhile Char.isDigit = S := by
      rw [takeWhile_all_append Char.isDigit S R (by rw [hSdef]; exact natDigits_all_digit _)]
      rw [hRtw, List.append_nil]
    have hx4 : S.isEmpty = false := by
      rw [hSdef]
      cases hS : natDigits (objectCount + 1) with
      | nil => exact absurd hS (natDigits_ne_nil (objectCount + 1))
      | cons c t => rfl
    have hx5 : (S ++ R).drop S.length = R := List.drop_left _ _
    have hx6 : ("\n0000000000 65535 f \n".data).isPrefixOf R = true := by
      rw [hRdef]
      exact isPrefixOf_append_self _ _
    have hx7 : R.drop 21 = X := by
      rw [hRdef]
      rw [show (21 : Nat) = ("\n0000000000 65535 f \n".data).length from rfl, List.drop_left]
    have hheader : readXrefHeader (pdf.drop body.length) = some (objectCount + 1, X) := by
      rw [hdropxo]
      simp only [readXrefHeader, hx1, hx2, hx3, hx4, hx5, hx6, hx7, Bool.false_eq_true,
        if_false, if_true, hSdef, digitsToNat_natDigits]
    -- the entry walk
    have hentries : checkEntries pdf X 1 objectCount = true := by
      rw [hXdef, ← hcount]
      exact checkEntries_append pdf offs TR 1 (by rw [hmap, hcount])
        (fun p hp => ⟨hseek p hp, hdigle p hp⟩)
    have hentlen : (xrefEntries offs).length = 20 * objectCount := by
      rw [xrefEntries_length offs hdigle, hcount]
    have htrailer : (("trailer\n<< /Size ".data ++ S).isPrefixOf (X.drop (20 * objectCount)))
        = true := by
      rw [hXdef]
      rw [show (20 * objectCount) = (xrefEntries offs).length from hentlen.symm, List.drop_left]
      rw [hTRdef]
      rw [show "trailer\n<< /Size ".data ++ (S ++ (" /Root 1 0 R >>\n".data
          ++ ("startxref\n".data ++ (D ++ "\n%%EOF\n".data))))
        = ("trailer\n<< /Size ".data ++ S) ++ (" /Root 1 0 R >>\n".data
          ++ ("startxref\n".data ++ (D ++ "\n%%EOF\n".data))) from by
        simp [List.append_assoc]]
      exact isPrefixOf_append_self _ _
    constructor
    · simp only [pdfXrefOk, hsxr, hheader, Nat.add_sub_cancel]
      rw [hentries]
      rw [hSdef] at htrailer
      rw [htrailer]
      rfl
    · simp only [readXrefSize, hsxr, hheader]

/-- Claim C1: every PDF produced by `buildSimplePdf` or by
`buildPdfWithTwoFonts` (hence by `buildEngagementReportPdf`, which returns
`buildPdfWithTwoFonts` of its page streams) passes the xref round-trip check:
the trailing `startxref` points at the `xref` keyword, each xref entry's
offset points at that object's `"{id} 0 obj"` line for every id
`1..Size-1`, and the trailer's `/Size` is `objectCount + 1`.  The size bound
keeps offsets within the 10 digits of an xref entry; Node strings (max
`2^29 - 1` code units) are far below it, so the bound excludes no reachable
input. -/
theorem claim_C1_xref_round_trip :
    (∀ (title : Str) (lines : List Str) (pdf : Str),
      buildSimplePdf title lines = .ok pdf → pdf.length ≤ 10 ^ 10 →
      pdfXrefOk pdf = true ∧
      readXrefSize pdf = some (simpleFontObjectId (simplePagesOf lines).length + 1)) ∧
    (∀ (pageStreams : List Str) (pdf : Str),
      buildPdfWithTwoFonts pageStreams = .ok pdf → pdf.length ≤ 10 ^ 10 →
      pdfXrefOk pdf = true ∧
      readXrefSize pdf = some (twoFontBoldId pageStreams.length + 1)) := by
  constructor
  · intro title lines pdf hok hlen
    exact assemblePdf_checker _ _ pdf hok hlen
  · intro pageStreams pdf hok hlen
    exact assemblePdf_checker _ _ pdf hok hlen

set_option maxRecDepth 40000 in
/-- Witness for claim C1 on a concrete one-page document. -/
theorem claim_C1_witness :
    buildSimplePdf ("T".data) ["a".data]
        = .ok ((buildSimplePdf ("T".data) ["a".data]).toOption.getD []) ∧
    ((buildSimplePdf ("T".data) ["a".data]).toOption.getD []).length ≤ 10 ^ 10 ∧
    (pdfXrefOk ((buildSimplePdf ("T".data) ["a".data]).toOption.getD []) = true ∧
      readXrefSize ((buildSimplePdf ("T".data) ["a".data]).toOption.getD [])
        = some (simpleFontObjectId (simplePagesOf ["a".data]).length + 1)) :=
  ⟨by rfl, by decide,
    claim_C1_xref_round_trip.1 ("T".data) ["a".data] _ (by rfl) (by decide)⟩

/-! ## Content stream `/Length` (claim C2) -/

/-- Index of the first occurrence of `pat` in `s`. -/
def findSub (pat : Str) : Str → Option Nat
  | [] => if pat.isPrefixOf [] then some 0 else none
  | c :: rest =>
    if pat.isPrefixOf (c :: rest) then some 0
    else (findSub pat rest).map (fun i => i + 1)

/-- Tail-recursive substring test, agreeing with `findSub` (below). -/
def hasSub (pat : Str) : Str → Bool
  | [] => pat.isPrefixOf ([] : Str)
  | c :: rest => if pat.isPrefixOf (c :: rest) then true else hasSub pat rest

theorem hasSub_false_iff (pat s : Str) : hasSub pat s = false ↔ findSub pat s = none := by
  induction s with
  | nil =>
    by_cases h : pat.isPrefixOf ([] : Str) = true
    · simp [hasSub, findSub, h]
    · simp [hasSub, findSub, h]
  | cons c rest ih =>
    by_cases h : pat.isPrefixOf (c :: rest) = true
    · simp [hasSub, findSub, h]
    · simp [hasSub, findSub, h, ih, Option.map_eq_none']

/-- The payload lying between the first `"stream\n"` marker and the final
`"\nendstream"` marker of a content object body. -/
def extractStreamPayload (body : Str) : Option Str :=
  match findSub ("stream\n".data) body with
  | none => none
  | some i =>
    if ("\nendstream".data).isSuffixOf (body.drop (i + 7))
    then some ((body.drop (i + 7)).take ((body.drop (i + 7)).length - 10))
    else none

/-- The integer declared after `<< /Length `. -/
def parseDeclaredLength (body : Str) : Option Nat :=
  if ("<< /Length ".data).isPrefixOf body then
    if ((body.drop 11).takeWhile Char.isDigit).isEmpty then none
    else some (digitsToNat ((body.drop 11).takeWhile Char.isDigit))
  else none

theorem findSub_first (c : Char) (pat' : Str) :
    ∀ (pre rest : Str), c ∉ pre →
      findSub (c :: pat') (pre ++ c :: (pat' ++ rest)) = some pre.length := by
  intro pre
  induction pre with
  | nil =>
    intro rest _
    have hp : (c :: pat').isPrefixOf (c :: (pat' ++ rest)) = true := by
      rw [List.isPrefixOf_iff_prefix]
      exact ⟨rest, by simp⟩
    simp only [List.nil_append, List.length_nil]
    unfold findSub
    rw [if_pos hp]
  | cons a t ih =>
    intro rest hc
    have hac : ¬ (c :: pat').isPrefixOf (a :: (t ++ c :: (pat' ++ rest))) = true := by
      intro hcontra
      rw [List.isPrefixOf_iff_prefix] at hcontra
      obtain ⟨u, hu⟩ := hcontra
      have : c = a := by
        have := congrArg (fun l => l.head?) hu
        simpa using this
      exact hc (by simp [this])
    simp only [List.cons_append, List.length_cons]
    unfold findSub
    rw [if_neg hac]
    rw [ih rest (fun hmem => hc (by simp [hmem]))]
    rfl

/-- `'s'` does not occur before the `stream` keyword in a content object
header `<< /Length {digits} >>\n`. -/
theorem no_s_in_length_header (n : Nat) :
    's' ∉ ("<< /Length ".data ++ (natDigits n ++ " >>\n".data)) := by
  intro hmem
  rw [List.mem_append] at hmem
  rcases hmem with h | h
  · revert h
    decide
  · rw [List.mem_append] at h
    rcases h with h | h
    · have := natDigits_all_digit n 's' h
      simp [Char.isDigit] at this
    · revert h
      decide

/-- Parsing a content object body recovers the payload and its declared
length exactly. -/
theorem contentObjBody_parses (stream : Str) :
    extractStreamPayload (contentObjBody stream) = some stream ∧
    parseDeclaredLength (contentObjBody stream) = some stream.length := by
  have hsplit : contentObjBody stream
      = ("<< /Length ".data ++ (natDigits stream.length ++ " >>\n".data))
        ++ ("stream\n".data ++ (stream ++ "\nendstream".data)) := by
    unfold contentObjBody
    rw [show " >>\nstream\n".data = " >>\n".data ++ "stream\n".data from rfl]
    simp [List.append_assoc]
  constructor
  · have hfind : findSub ("stream\n".data) (contentObjBody stream)
        = some ("<< /Length ".data ++ (natDigits stream.length ++ " >>\n".data)).length := by
      rw [hsplit]
      rw [show "stream\n".data = 's' :: ("tream\n".data) from rfl]
      rw [List.cons_append]
      exact findSub_first 's' ("tream\n".data) _ _ (no_s_in_length_header stream.length)
    have hd : (contentObjBody stream).drop
        (("<< /Length ".data ++ (natDigits stream.length ++ " >>\n".data)).length + 7)
        = stream ++ "\nendstream".data := by
      rw [hsplit]
      rw [show ("<< /Length ".data ++ (natDigits stream.length ++ " >>\n".data))
            ++ ("stream\n".data ++ (stream ++ "\nendstream".data))
          = (("<< /Length ".data ++ (natDigits stream.length ++ " >>\n".data))
            ++ "stream\n".data) ++ (stream ++ "\nendstream".data) from by
        simp [List.append_assoc]]
      rw [show ("<< /Length ".data ++ (natDigits stream.length ++ " >>\n".data)).length + 7
          = (("<< /Length ".data ++ (natDigits stream.length ++ " >>\n".data))
            ++ "stream\n".data).length from by simp]
      rw [List.drop_left]
    have hsuffOk : ("\nendstream".data).isSuffixOf (stream ++ "\nendstream".data) = true := by
      rw [List.isSuffixOf_iff_suffix]
      exact List.suffix_append _ _
    have htake : (stream ++ "\nendstream".data).take
        ((stream ++ "\nendstream".data).length - 10) = stream := by
      rw [show (stream ++ "\nendstream".data).length - 10 = stream.length from by simp]
      exact List.take_left _ _
    simp only [extractStreamPayload, hfind, hd, hsuffOk, if_true, htake]
  · have hsplit2 : contentObjBody stream
        = "<< /Length ".data ++ (natDigits stream.length
          ++ (" >>\nstream\n".data ++ (stream ++ "\nendstream".data))) := by
      unfold contentObjBody
      simp [List.append_assoc]
    have hpre : ("<< /Length ".data).isPrefixOf (contentObjBody stream) = true := by
      rw [hsplit2]
      exact isPrefixOf_append_self _ _
    have hdrop11 : (contentObjBody stream).drop 11
        = natDigits stream.length ++ (" >>\nstream\n".data ++ (stream ++ "\nendstream".data)) := by
      rw [hsplit2]
      rw [show (11 : Nat) = ("<< /Length ".data).length from rfl, List.drop_left]
    have htw : (natDigits stream.length
        ++ (" >>\nstream\n".data ++ (stream ++ "\nendstream".data))).takeWhile Char.isDigit
        = natDigits stream.length := by
      rw [takeWhile_all_append Char.isDigit _ _ (natDigits_all_digit stream.length)]
      rw [show " >>\nstream\n".data ++ (stream ++ "\nendstream".data)
          = ' ' :: (">>\nstream\n".data ++ (stream ++ "\nendstream".data)) from rfl]
      rw [takeWhile_cons_neg _ _ _ (by decide)]
      simp
    have hempty : (natDigits stream.length).isEmpty = false := by
      cases hD : natDigits stream.length with
      | nil => exact absurd hD (natDigits_ne_nil stream.length)
      | cons c t => rfl
    simp only [parseDeclaredLength, hpre, if_true, hdrop11, htw, hempty, Bool.false_eq_true,
      if_false, digitsToNat_natDigits]

/-- Looking up a content object id after the per-page fold returns the
content body written for that page (later iterations touch different ids). -/
theorem foldl_content_lookup (A B : Nat → Str) :
    ∀ (n : Nat) (m : Nat → Option Str) (i : Nat), i < n →
      ((List.range n).foldl (fun m k =>
        mset (mset m (simplePageObjectId k) (A k)) (simpleContentObjectId k) (B k)) m)
        (simpleContentObjectId i) = some (B i) := by
  intro n
  induction n with
  | zero => intro m i hi; omega
  | succ n ih =>
    intro m i hi
    rw [List.range_succ, List.foldl_append, List.foldl_cons, List.foldl_nil]
    by_cases hin : i = n
    · subst hin
      exact mset_self _ _ _
    · rw [mset_other _ _ _ _ (by unfold simpleContentObjectId; omega)]
      rw [mset_other _ _ _ _ (by unfold simpleContentObjectId simplePageObjectId; omega)]
      exact ih m i (by omega)

/-- Claim C2: every content-stream object of `buildSimplePdf` (and likewise
of `buildPdfWithTwoFonts`, used by `buildEngagementReportPdf`) declares
`/Length` equal to the exact byte length of the payload lying between
`"stream\n"` and `"\nendstream"` in that object — for every title and line
list, including the empty list (where the single page's stream is still a
well-formed content object). -/
theorem claim_C2_content_length :
    (∀ stream : Str, ∃ payload,
      extractStreamPayload (contentObjBody stream) = some payload ∧
      parseDeclaredLength (contentObjBody stream) = some payload.length) ∧
    (∀ (title : Str) (lines : List Str) (i : Nat), i < (simplePagesOf lines).length →
      simpleObjectBodies title (simplePagesOf lines) (simpleContentObjectId i)
        = some (contentObjBody (buildPdfPageStream
            (simplePageTitle title (simplePagesOf lines).length i)
            ((simplePagesOf lines).getD i [])))) ∧
    (∀ (pageStreams : List Str) (i : Nat), i < pageStreams.length →
      twoFontObjectBodies pageStreams (simpleContentObjectId i)
        = some (contentObjBody (pageStreams.getD i []))) := by
  refine ⟨?_, ?_, ?_⟩
  · intro stream
    obtain ⟨h1, h2⟩ := contentObjBody_parses stream
    exact ⟨stream, h1, h2⟩
  · intro title lines i hi
    unfold simpleObjectBodies
    rw [mset_other _ _ _ _ (by
      unfold simpleContentObjectId simpleFontObjectId
      omega)]
    exact foldl_content_lookup _ _ (simplePagesOf lines).length _ i hi
  · intro pageStreams i hi
    unfold twoFontObjectBodies
    rw [mset_other _ _ _ _ (by
      unfold simpleContentObjectId twoFontBoldId
      omega)]
    rw [mset_other _ _ _ _ (by
      unfold simpleContentObjectId twoFontRegularId
      omega)]
    exact foldl_content_lookup _ _ pageStreams.length _ i hi

set_option maxRecDepth 40000 in
/-- Witness for claim C2 at a one-page document and a one-stream document. -/
theorem claim_C2_witness :
    ((∃ payload,
      extractStreamPayload (contentObjBody ("BT ET".data)) = some payload ∧
      parseDeclaredLength (contentObjBody ("BT ET".data)) = some payload.length) ∧
    ((0 : Nat) < (simplePagesOf ["a".data]).length ∧
      simpleObjectBodies ("T".data) (simplePagesOf ["a".data]) (simpleContentObjectId 0)
        = some (contentObjBody (buildPdfPageStream
            (simplePageTitle ("T".data) (simplePagesOf ["a".data]).length 0)
            ((simplePagesOf ["a".data]).getD 0 [])))) ∧
    ((0 : Nat) < ([("BT ET".data)] : List Str).length ∧
      twoFontObjectBodies [("BT ET".data)] (simpleContentObjectId 0)
        = some (contentObjBody (([("BT ET".data)] : List Str).getD 0 [])))) :=
  ⟨claim_C2_content_length.1 ("BT ET".data),
    ⟨by decide, claim_C2_content_length.2.1 ("T".data) ["a".data] 0 (by decide)⟩,
    ⟨by decide, claim_C2_content_length.2.2 [("BT ET".data)] 0 (by decide)⟩⟩

/-! ## The engagement report page renderer (exporters.ts:706-1135)

JavaScript's float-to-decimal-string conversion (template interpolation of
numbers and `toLocaleString("en-US")`) has no exact rational counterpart, so
it is kept abstract as a `JsNumFormat` parameter; everything else is
translated from the source.  All claims proved below hold for every
formatter, and witnesses instantiate it with a concrete one. -/

/-- The two number-to-string conversions the renderer uses: plain template
interpolation (`${n}`) and `toLocaleString("en-US", {maximumFractionDigits:
2})` (used by `formatReportNumber`). -/
structure JsNumFormat where
  toStr : ℚ → Str
  toLocaleStr : ℚ → Str

/-- `round2` (exporters.ts:32-34): `Math.round(value * 100) / 100`;
JavaScript `Math.round` is floor of `x + 0.5`. -/
def round2 (q : ℚ) : ℚ := ((⌊q * 100 + 1/2⌋ : Int) : ℚ) / 100

/-- `formatReportNumber` (exporters.ts:523-526). -/
def formatReportNumber (fmt : JsNumFormat) (value : ℚ) : Str :=
  fmt.toLocaleStr (round2 value)

/-- `estimatePdfTextWidth` (exporters.ts:571-573): `0.48` is exactly
`12/25`. -/
def estimatePdfTextWidth (text : Str) (fontSize : ℚ) : ℚ :=
  ((toPdfSafeAscii text).length : ℚ) * (fontSize * (12/25))

/-- `Alignment` (exporters.ts:490). -/
inductive ColAlign
  | left
  | center
  | right
deriving DecidableEq

/-- `resolveCellTextX` (exporters.ts:575-596). -/
def resolveCellTextX (colX colWidth : ℚ) (align : ColAlign) (text : Str) (fontSize : ℚ)
    (padding : ℚ := REPORT_CELL_PADDING_X) : ℚ :=
  match align with
  | .left => colX + padding
  | .right => colX + colWidth - estimatePdfTextWidth text fontSize - padding
  | .center => colX + (colWidth - estimatePdfTextWidth text fontSize) / 2

/-- The column keys of `EngagementReportColumn` (exporters.ts:492-497). -/
inductive ColKey
  | rowLabel
  | scenario
  | size
  | service
  | sectionKey
  | days
deriving DecidableEq

/-- `EngagementReportColumn` (exporters.ts:492-497). -/
structure ReportColumn where
  key : ColKey
  label : Str
  width : ℚ
  align : ColAlign

/-- `REPORT_COLUMNS` (exporters.ts:506-513). -/
def REPORT_COLUMNS : List ReportColumn :=
  [⟨.rowLabel, "#".data, 30, .center⟩,
   ⟨.scenario, "Scenario".data, 196, .left⟩,
   ⟨.size, "Size".data, 46, .center⟩,
   ⟨.service, "Service".data, 188, .left⟩,
   ⟨.sectionKey, "Section".data, 176, .left⟩,
   ⟨.days, "Days".data, 76, .right⟩]

/-- `drawPdfText` (exporters.ts:706-723). -/
def drawPdfText (fmt : JsNumFormat) (text : Str) (x y size : ℚ)
    (font : Str := "F1".data) (color : ℚ × ℚ × ℚ := (0.1, 0.17, 0.28)) : List Str :=
  ["BT".data,
   "/".data ++ font ++ " ".data ++ fmt.toStr size ++ " Tf".data,
   fmt.toStr color.1 ++ " ".data ++ fmt.toStr color.2.1 ++ " ".data
     ++ fmt.toStr color.2.2 ++ " rg".data,
   "1 0 0 1 ".data ++ fmt.toStr (round2 x) ++ " ".data ++ fmt.toStr (round2 y) ++ " Tm".data,
   "(".data ++ escapePdfText text ++ ") Tj".data,
   "ET".data]

/-- `drawPdfLine` (exporters.ts:725-741). -/
def drawPdfLine (fmt : JsNumFormat) (x1 y1 x2 y2 : ℚ)
    (color : ℚ × ℚ × ℚ := (0.78, 0.83, 0.9)) (width : ℚ := 0.6) : List Str :=
  [fmt.toStr color.1 ++ " ".data ++ fmt.toStr color.2.1 ++ " ".data
     ++ fmt.toStr color.2.2 ++ " RG".data,
   fmt.toStr width ++ " w".data,
   fmt.toStr (round2 x1) ++ " ".data ++ fmt.toStr (round2 y1) ++ " m".data,
   fmt.toStr (round2 x2) ++ " ".data ++ fmt.toStr (round2 y2) ++ " l".data,
   "S".data]

/-- `drawPdfFillRect` (exporters.ts:743-755). -/
def drawPdfFillRect (fmt : JsNumFormat) (x y width height : ℚ) (color : ℚ × ℚ × ℚ) : List Str :=
  [fmt.toStr color.1 ++ " ".data ++ fmt.toStr color.2.1 ++ " ".data
     ++ fmt.toStr color.2.2 ++ " rg".data,
   fmt.toStr (round2 x) ++ " ".data ++ fmt.toStr (round2 y) ++ " ".data
     ++ fmt.toStr (round2 width) ++ " ".data ++ fmt.toStr (round2 height) ++ " re".data,
   "f".data]

/-- The multi-line cell renderer shared by the scenario/service/section
columns (exporters.ts:983-1033): one text command per non-empty wrapped line,
stepping down by the row line height from `rowTopY - 10`. -/
def drawWrappedCell (fmt : JsNumFormat) (lines : List Str) (colX firstLineY : ℚ)
    (font : Str) : List Str :=
  lines.enum.flatMap (fun p =>
    if p.2.isEmpty then []
    else drawPdfText fmt p.2 (colX + REPORT_CELL_PADDING_X)
      (firstLineY - (p.1 : ℚ) * REPORT_ROW_LINE_HEIGHT) REPORT_ROW_FONT_SIZE font
      (0.16, 0.22, 0.32))

/-- The per-column body of the row loop (exporters.ts:981-1065). -/
def engagementRowCells (fmt : JsNumFormat) (row : PreparedEngagementReportRow)
    (rowTopY rowBottomY : ℚ) : List ReportColumn → ℚ → List Str
  | [], _ => []
  | col :: rest, colX =>
    (match col.key with
     | .scenario =>
       drawWrappedCell fmt row.scenarioLines colX (rowTopY - 10)
         (if row.variant = .grandTotal ∨ row.variant = .scenarioTotal
          then "F2".data else "F1".data)
     | .service =>
       drawWrappedCell fmt row.serviceLines colX (rowTopY - 10)
         (if row.variant = .grandTotal ∨ row.variant = .scenarioTotal
          then "F2".data else "F1".data)
     | .sectionKey =>
       drawWrappedCell fmt row.sectionLines colX (rowTopY - 10)
         (if row.variant = .grandTotal ∨ row.variant = .scenarioTotal
          then "F2".data else "F1".data)
     | k =>
       let text : Str :=
         match k with
         | .days => formatReportNumber fmt row.days
         | .rowLabel => row.rowLabel
         | _ => row.size
       drawPdfText fmt text
         (resolveCellTextX colX col.width col.align text REPORT_ROW_FONT_SIZE)
         (rowBottomY + row.rowHeight / 2 - 3) REPORT_ROW_FONT_SIZE
         (if row.variant = .grandTotal ∨ row.variant = .scenarioTotal
            ∨ col.key = .size ∨ (col.key = .days ∧ row.variant ≠ .service)
          then "F2".data else "F1".data)
         (0.16, 0.22, 0.32))
    ++ engagementRowCells fmt row rowTopY rowBottomY rest (colX + col.width)

/-- `tableWidth` (exporters.ts:780). -/
def reportTableWidth : ℚ := (REPORT_COLUMNS.map (fun c => c.width)).foldl (· + ·) 0

/-- `tableRightX` (exporters.ts:781). -/
def reportTableRightX : ℚ := REPORT_TABLE_X + reportTableWidth

/-- `headerBottomY` (exporters.ts:782). -/
def reportHeaderBottomY : ℚ := REPORT_TABLE_TOP_Y - REPORT_TABLE_HEADER_HEIGHT

/-- The body-row loop (exporters.ts:946-1077): shading, cells, separator
line; returns the commands together with the final `rowTopY`. -/
def engagementRowsCmds (fmt : JsNumFormat) :
    List PreparedEngagementReportRow → Nat → ℚ → List Str × ℚ
  | [], _, rowTopY => ([], rowTopY)
  | row :: rest, index, rowTopY =>
    let rowBottomY := rowTopY - row.rowHeight
    let shade : List Str :=
      if row.variant = .grandTotal then
        drawPdfFillRect fmt REPORT_TABLE_X rowBottomY reportTableWidth row.rowHeight
          (0.83, 0.92, 1)
      else if row.variant = .scenarioTotal then
        drawPdfFillRect fmt REPORT_TABLE_X rowBottomY reportTableWidth row.rowHeight
          (0.93, 0.97, 1)
      else if index % 2 = 1 then
        drawPdfFillRect fmt REPORT_TABLE_X rowBottomY reportTableWidth row.rowHeight
          (0.98, 0.99, 1)
      else []
    let cells := engagementRowCells fmt row rowTopY rowBottomY REPORT_COLUMNS REPORT_TABLE_X
    let sep := drawPdfLine fmt REPORT_TABLE_X rowBottomY reportTableRightX rowBottomY
      (0.85, 0.89, 0.94)
    let (restCmds, finalY) := engagementRowsCmds fmt rest (index + 1) rowBottomY
    (shade ++ cells ++ sep ++ restCmds, finalY)

/-- The zero-row placeholder block (exporters.ts:914-944). -/
def engagementEmptyRowCmds (fmt : JsNumFormat) : List Str :=
  drawPdfFillRect fmt REPORT_TABLE_X (reportHeaderBottomY - 18) reportTableWidth 18
    (0.98, 0.99, 1)
  ++ drawPdfText fmt ("No selected scenario rows to export.".data) (REPORT_TABLE_X + 8)
      ((reportHeaderBottomY - 18) + 6) 8.2 ("F1".data) (0.34, 0.43, 0.55)
  ++ drawPdfLine fmt REPORT_TABLE_X (reportHeaderBottomY - 18) reportTableRightX
      (reportHeaderBottomY - 18) (0.85, 0.89, 0.94)

/-- The column-header band loop (exporters.ts:888-910). -/
def engagementHeaderCells (fmt : JsNumFormat) : List ReportColumn → ℚ → List Str
  | [], _ => []
  | col :: rest, headerX =>
    drawPdfText fmt col.label
      (resolveCellTextX headerX col.width col.align col.label 8 3)
      (reportHeaderBottomY + 5) 8 ("F2".data) (0.14, 0.24, 0.37)
    ++ engagementHeaderCells fmt rest (headerX + col.width)

/-- The vertical grid lines (exporters.ts:1096-1114): one line at the table's
left edge, then one after each column. -/
def engagementGridCmds (fmt : JsNumFormat) (rowTopY : ℚ) : List ReportColumn → ℚ → List Str
  | [], _ => []
  | col :: rest, gridX =>
    drawPdfLine fmt (gridX + col.width) REPORT_TABLE_TOP_Y (gridX + col.width) rowTopY
    ++ engagementGridCmds fmt rowTopY rest (gridX + col.width)

/-- `buildEngagementReportPageStream` (exporters.ts:757-1135). -/
def buildEngagementReportPageStream (fmt : JsNumFormat) (engagementName : Str)
    (customerName opportunity : Option Str) (spread : Spread)
    (rows : List PreparedEngagementReportRow) (totals : SizerTotals)
    (generatedAtLabel : Str) (pageIndex pageCount : Nat) : Str :=
  let infoBoxY : ℚ := (PDF_PAGE_HEIGHT : ℚ) - 150
  let planLine := (wrapPdfCellText ("Plan: ".data ++ engagementName) 96 1).headD []
  let bodyRows := engagementRowsCmds fmt rows 0 reportHeaderBottomY
  let commands : List Str :=
    drawPdfFillRect fmt REPORT_TABLE_X ((PDF_PAGE_HEIGHT : ℚ) - 26) reportTableWidth 3
      (0.04, 0.43, 0.82)
    ++ drawPdfText fmt ("Max Success Plan Premium Services Quicksizer".data) REPORT_TABLE_X
        ((PDF_PAGE_HEIGHT : ℚ) - 43) 15 ("F2".data) (0.05, 0.26, 0.52)
    ++ drawPdfText fmt planLine REPORT_TABLE_X ((PDF_PAGE_HEIGHT : ℚ) - 58) 9.6 ("F2".data)
        (0.18, 0.27, 0.41)
    ++ drawPdfText fmt ("Generated ".data ++ generatedAtLabel ++ " | Page ".data
          ++ natDigits (pageIndex + 1) ++ " of ".data ++ natDigits pageCount)
        REPORT_TABLE_X ((PDF_PAGE_HEIGHT : ℚ) - 71) 8.3 ("F1".data) (0.34, 0.43, 0.55)
    ++ drawPdfFillRect fmt REPORT_TABLE_X infoBoxY reportTableWidth 62 (0.95, 0.98, 1)
    ++ drawPdfText fmt ("Customer: ".data ++ (customerName.getD ("-".data)))
        (REPORT_TABLE_X + 8) (infoBoxY + 44) 8.5 ("F2".data)
    ++ drawPdfText fmt ("Opportunity: ".data ++ (opportunity.getD ("-".data)))
        (REPORT_TABLE_X + 8) (infoBoxY + 31) 8.5
    ++ drawPdfText fmt ("Spread %: Y1 ".data ++ formatReportNumber fmt spread.y1
          ++ "  Y2 ".data ++ formatReportNumber fmt spread.y2
          ++ "  Y3 ".data ++ formatReportNumber fmt spread.y3
          ++ "  Y4 ".data ++ formatReportNumber fmt spread.y4
          ++ "  Y5 ".data ++ formatReportNumber fmt spread.y5)
        (REPORT_TABLE_X + 8) (infoBoxY + 18) 8.5
    ++ drawPdfFillRect fmt REPORT_TABLE_X (infoBoxY + 2) reportTableWidth 12 (0.9, 0.95, 1)
    ++ drawPdfText fmt ("Totals: Days ".data ++ formatReportNumber fmt totals.selectedDays
          ++ "  |  Y1 ".data ++ formatReportNumber fmt totals.y1
          ++ "  Y2 ".data ++ formatReportNumber fmt totals.y2
          ++ "  Y3 ".data ++ formatReportNumber fmt totals.y3
          ++ "  Y4 ".data ++ formatReportNumber fmt totals.y4
          ++ "  Y5 ".data ++ formatReportNumber fmt totals.y5)
        (REPORT_TABLE_X + 8) (infoBoxY + 5) 8.4 ("F2".data) (0.06, 0.29, 0.56)
    ++ drawPdfFillRect fmt REPORT_TABLE_X reportHeaderBottomY reportTableWidth
        REPORT_TABLE_HEADER_HEIGHT (0.91, 0.95, 1)
    ++ engagementHeaderCells fmt REPORT_COLUMNS REPORT_TABLE_X
    ++ (if rows.isEmpty then engagementEmptyRowCmds fmt else bodyRows.1)
    ++ drawPdfLine fmt REPORT_TABLE_X REPORT_TABLE_TOP_Y reportTableRightX REPORT_TABLE_TOP_Y
    ++ drawPdfLine fmt REPORT_TABLE_X reportHeaderBottomY reportTableRightX reportHeaderBottomY
    ++ drawPdfLine fmt REPORT_TABLE_X REPORT_TABLE_TOP_Y REPORT_TABLE_X
        (if rows.isEmpty then reportHeaderBottomY - 18 else bodyRows.2)
    ++ engagementGridCmds fmt
        (if rows.isEmpty then reportHeaderBottomY - 18 else bodyRows.2)
        REPORT_COLUMNS REPORT_TABLE_X
    ++ drawPdfText fmt ("Generated by Max Success Plan Premium Services Quicksizer".data)
        REPORT_TABLE_X 16 7.8 ("F1".data) (0.44, 0.5, 0.6)
    ++ drawPdfText fmt ("Page ".data ++ natDigits (pageIndex + 1) ++ " of ".data
          ++ natDigits pageCount)
        (reportTableRightX - 58) 16 7.8 ("F1".data) (0.44, 0.5, 0.6)
  List.intercalate ("\n".data) commands

/-- The argument record of `buildEngagementReportPdf` (exporters.ts:1212-1220). -/
structure EngagementArgs where
  engagementName : Str
  customerName : Option Str
  opportunity : Option Str
  spread : Spread
  result : QuickSizerResult
  serviceSummaryByRow : Nat → Option Str
  serviceDetailsByRow : Nat → Option (List ServiceDetail)

/-- The page list of `buildEngagementReportPdf` (exporters.ts:1221-1228). -/
def engagementReportPages (args : EngagementArgs) : List (List PreparedEngagementReportRow) :=
  paginateEngagementReportRows (prepareEngagementReportRows
    (buildEngagementReportRows args.result args.serviceSummaryByRow args.serviceDetailsByRow))

/-- The page streams of `buildEngagementReportPdf` (exporters.ts:1232-1244). -/
def engagementStreams (fmt : JsNumFormat) (args : EngagementArgs)
    (generatedAtLabel : Str) : List Str :=
  (engagementReportPages args).enum.map (fun p =>
    buildEngagementReportPageStream fmt args.engagementName args.customerName
      args.opportunity args.spread p.2 args.result.totals generatedAtLabel p.1
      (engagementReportPages args).length)

/-- `buildEngagementReportPdf` (exporters.ts:1212-1247).  `generatedAtLabel`
models `new Date().toISOString().slice(0, 16).replace("T", " ")` — a reading
of the system clock at minute granularity, passed explicitly because the
model is pure. -/
def buildEngagementReportPdf (fmt : JsNumFormat) (args : EngagementArgs)
    (generatedAtLabel : Str) : Except Str Str :=
  buildPdfWithTwoFonts (engagementStreams fmt args generatedAtLabel)

/-- A concrete formatter used by witnesses and counterexamples: it prints
every number as `0`.  The claims below hold for every formatter, so any
concrete instance serves; a constant one keeps kernel evaluation cheap. -/
def stubNumFormat : JsNumFormat := ⟨fun _ => "0".data, fun _ => "0".data⟩

/-- A concrete zero-row input. -/
def emptyResultArgs : EngagementArgs :=
  { engagementName := "Plan".data, customerName := none, opportunity := none,
    spread := ⟨0, 0, 0, 0, 0⟩, result := { rows := [], totals := ⟨0, 0, 0, 0, 0, 0⟩ },
    serviceSummaryByRow := fun _ => none, serviceDetailsByRow := fun _ => none }

set_option maxRecDepth 100000 in
/-- Claim C4 as stated is false: with zero input rows the document does have
exactly one page, but that page renders the always-appended grand-total row;
its content stream does not contain the
`"No selected scenario rows to export."` placeholder text anywhere. -/
theorem claim_C4_counterexample :
    (engagementReportPages emptyResultArgs).length = 1 ∧
    (engagementStreams stubNumFormat emptyResultArgs ("2024-01-01 00:00".data)).length = 1 ∧
    findSub ("No selected scenario rows to export.".data)
      ((engagementStreams stubNumFormat emptyResultArgs ("2024-01-01 00:00".data)).headD [])
      = none := by
  refine ⟨by decide, by decide, ?_⟩
  rw [← hasSub_false_iff]
  decide

set_option maxRecDepth 100000 in
/-- Claim C5 as stated is false: `buildEngagementReportPdf` embeds the
minute-granularity clock label `new Date().toISOString().slice(0,16)` into
every page, so two invocations with equal arguments in different minutes
return different byte buffers. -/
theorem claim_C5_counterexample :
    (buildEngagementReportPdf stubNumFormat emptyResultArgs
        ("2024-01-01 00:00".data)).toOption.isSome = true ∧
    (buildEngagementReportPdf stubNumFormat emptyResultArgs
        ("2024-01-01 00:01".data)).toOption.isSome = true ∧
    (buildEngagementReportPdf stubNumFormat emptyResultArgs
        ("2024-01-01 00:00".data)).toOption
      ≠ (buildEngagementReportPdf stubNumFormat emptyResultArgs
        ("2024-01-01 00:01".data)).toOption := by
  refine ⟨by decide, by decide, ?_⟩
  intro h
  have h1 : (((buildEngagementReportPdf stubNumFormat emptyResultArgs
      ("2024-01-01 00:00".data)).toOption.getD []).drop 513).headD ' ' = '0' := by decide
  have h2 : (((buildEngagementReportPdf stubNumFormat emptyResultArgs
      ("2024-01-01 00:01".data)).toOption.getD []).drop 513).headD ' ' = '1' := by decide
  rw [h] at h1
  rw [h2] at h1
  exact absurd h1 (by decide)

/-- Claim C5, amended: `buildEngagementReportPdf` is a pure function of its
arguments together with the generated-at clock label (and the ambient number
formatter): invocations with equal inputs and equal labels return identical
byte buffers; invocations in different minutes may differ (see the
counterexample). -/
theorem claim_C5_amended (fmt fmt2 : JsNumFormat) (a1 a2 : EngagementArgs) (l1 l2 : Str)
    (hf : fmt = fmt2) (ha : a1 = a2) (hl : l1 = l2) :
    buildEngagementReportPdf fmt a1 l1 = buildEngagementReportPdf fmt2 a2 l2 := by
  subst hf
  subst ha
  subst hl
  rfl

/-- Witness for the amended claim C5 at concrete equal inputs. -/
theorem claim_C5_amended_witness :
    stubNumFormat = stubNumFormat ∧ emptyResultArgs = emptyResultArgs ∧
    ("2024-01-01 00:00".data : Str) = ("2024-01-01 00:00".data : Str) ∧
    buildEngagementReportPdf stubNumFormat emptyResultArgs ("2024-01-01 00:00".data)
      = buildEngagementReportPdf stubNumFormat emptyResultArgs ("2024-01-01 00:00".data) :=
  ⟨rfl, rfl, rfl, claim_C5_amended _ _ _ _ _ _ rfl rfl rfl⟩

/-! ## ASCII purity (claim C10)

`Buffer.from(s, "ascii")` is lossless exactly when every character code of
`s` is at most 127 (the codec keeps the low 7 bits of each UTF-16 code unit),
and then `Buffer.byteLength(s, "ascii") = s.length`; the checker below and
the theorems establish that both builders only ever emit such strings. -/

/-- Losslessness of the `"ascii"` codec for a JS string. -/
def asciiStr (s : Str) : Bool := s.all (fun c => c.toNat ≤ 127)

theorem asciiStr_iff (s : Str) : asciiStr s = true ↔ ∀ c ∈ s, c.toNat ≤ 127 := by
  simp [asciiStr]

theorem asciiStr_append (a b : Str) :
    asciiStr (a ++ b) = true ↔ (asciiStr a = true ∧ asciiStr b = true) := by
  simp only [asciiStr_iff]
  constructor
  · intro h
    exact ⟨fun c hc => h c (List.mem_append.mpr (Or.inl hc)),
           fun c hc => h c (List.mem_append.mpr (Or.inr hc))⟩
  · intro h c hc
    rcases List.mem_append.mp hc with hc | hc
    · exact h.1 c hc
    · exact h.2 c hc

theorem isDigit_toNat_le (c : Char) (h : c.isDigit = true) : c.toNat ≤ 127 := by
  simp [Char.isDigit, Char.le_def] at h
  have h3 : c.val.toNat ≤ ('9' : Char).val.toNat := h.2
  have h4 : ('9' : Char).val.toNat = 57 := rfl
  simp only [Char.toNat]
  omega

theorem natDigits_ascii (n : Nat) : asciiStr (natDigits n) = true := by
  rw [asciiStr_iff]
  intro c hc
  exact isDigit_toNat_le c (natDigits_all_digit n c hc)

theorem intStr_ascii (i : Int) : asciiStr (intStr i) = true := by
  unfold intStr
  split
  · rw [asciiStr_iff]
    intro c hc
    rcases List.mem_cons.mp hc with hc | hc
    · subst hc
      decide
    · exact (asciiStr_iff _).mp (natDigits_ascii _) c hc
  · exact natDigits_ascii _

theorem pad10_ascii (n : Nat) : asciiStr (pad10 n) = true := by
  unfold pad10
  rw [asciiStr_append]
  refine ⟨?_, natDigits_ascii n⟩
  rw [asciiStr_iff]
  intro c hc
  rw [List.eq_of_mem_replicate hc]
  decide

theorem toPdfSafeAscii_ascii (s : Str) : asciiStr (toPdfSafeAscii s) = true := by
  rw [asciiStr_iff]
  intro c hc
  unfold toPdfSafeAscii at hc
  rw [List.mem_map] at hc
  obtain ⟨x, _, rfl⟩ := hc
  unfold pdfSafeChar
  split
  · rename_i h
    omega
  · decide

theorem escapePdfText_ascii (s : Str) : asciiStr (escapePdfText s) = true := by
  rw [escapePdfText_eq_spec]
  unfold escapePdfTextSpec
  rw [asciiStr_iff]
  intro c hc
  rw [List.mem_flatMap] at hc
  obtain ⟨x, hx, hcx⟩ := hc
  have hx127 : x.toNat ≤ 127 := (asciiStr_iff _).mp (toPdfSafeAscii_ascii s) x hx
  unfold escapeSpecChar at hcx
  split at hcx
  · rcases List.mem_cons.mp hcx with h | h
    · subst h
      decide
    · simp at h
      subst h
      exact hx127
  · simp at hcx
    subst hcx
    exact hx127

theorem asciiStr_flatten (l : List Str) (h : ∀ x ∈ l, asciiStr x = true) :
    asciiStr l.flatten = true := by
  rw [asciiStr_iff]
  intro c hc
  rw [List.mem_flatten] at hc
  obtain ⟨x, hx, hcx⟩ := hc
  exact (asciiStr_iff x).mp (h x hx) c hcx

theorem mem_intersperse (sep : Str) :
    ∀ (l : List Str), ∀ x ∈ List.intersperse sep l, x = sep ∨ x ∈ l
  | [], x, hx => by simp [List.intersperse] at hx
  | [a], x, hx => by
    simp [List.intersperse] at hx
    simp [hx]
  | a :: b :: t, x, hx => by
    have he : List.intersperse sep (a :: b :: t) = a :: sep :: List.intersperse sep (b :: t) :=
      rfl
    rw [he] at hx
    rcases List.mem_cons.mp hx with h | h
    · exact Or.inr (by simp [h])
    · rcases List.mem_cons.mp h with h | h
      · exact Or.inl h
      · rcases mem_intersperse sep (b :: t) x h with h | h
        · exact Or.inl h
        · exact Or.inr (List.mem_cons.mpr (Or.inr h))

theorem asciiStr_intercalate (sep : Str) (hsep : asciiStr sep = true) (l : List Str)
    (h : ∀ x ∈ l, asciiStr x = true) : asciiStr (List.intercalate sep l) = true := by
  unfold List.intercalate
  refine asciiStr_flatten _ ?_
  intro x hx
  rcases mem_intersperse sep l x hx with h1 | h1
  · subst h1
    exact hsep
  · exact h x h1

theorem asciiStr_getD (l : List Str) (h : ∀ x ∈ l, asciiStr x = true) (i : Nat) :
    asciiStr (l.getD i []) = true := by
  rcases hx : l[i]? with _ | x
  · simp [List.getD, hx, asciiStr]
  · simp only [List.getD, List.get?_eq_getElem?, hx, Option.getD_some]
    exact h x (List.getElem?_mem hx)

theorem asciiStr_append_eq (a b : Str) : asciiStr (a ++ b) = (asciiStr a && asciiStr b) := by
  simp [asciiStr, List.all_append]

theorem buildPdfPageStream_ascii (title : Str) (lines : List Str) :
    asciiStr (buildPdfPageStream title lines) = true := by
  simp only [buildPdfPageStream]
  refine asciiStr_intercalate _ (by decide) _ ?_
  intro x hx
  rcases List.mem_append.mp hx with hx | hx
  · rcases List.mem_append.mp hx with hx | hx
    · simp only [List.mem_cons, List.not_mem_nil, or_false] at hx
      rcases hx with rfl | rfl | rfl | rfl | rfl <;>
        (try simp only [asciiStr_append_eq, Bool.and_eq_true, natDigits_ascii, intStr_ascii,
          escapePdfText_ascii, and_true, true_and]) <;>
        decide
    · rw [List.mem_flatMap] at hx
      obtain ⟨p, _, hp⟩ := hx
      simp only [List.mem_cons, List.not_mem_nil, or_false] at hp
      rcases hp with rfl | rfl <;>
        simp only [asciiStr_append_eq, Bool.and_eq_true, natDigits_ascii, intStr_ascii,
          escapePdfText_ascii, and_true, true_and] <;>
        decide
  · simp only [List.mem_cons, List.not_mem_nil, or_false] at hx
    subst hx
    decide

theorem objText_ascii (id : Nat) (body : Str) (hb : asciiStr body = true) :
    asciiStr (objText id body) = true := by
  simp only [objText, asciiStr_append_eq, Bool.and_eq_true, natDigits_ascii, hb, and_true,
    true_and] <;>
  decide

theorem pagesKidsBody_ascii (ids : List Nat) (count : Nat) :
    asciiStr (pagesKidsBody ids count) = true := by
  have hI : asciiStr
      (List.intercalate (" ".data) (ids.map (fun id => natDigits id ++ " 0 R".data))) = true := by
    refine asciiStr_intercalate _ (by decide) _ ?_
    intro x hx
    rw [List.mem_map] at hx
    obtain ⟨id, _, rfl⟩ := hx
    simp only [asciiStr_append_eq, Bool.and_eq_true, natDigits_ascii, true_and]
    decide
  simp only [pagesKidsBody, asciiStr_append_eq, Bool.and_eq_true, natDigits_ascii, hI, and_true,
    true_and] <;>
  decide

theorem simplePageBody_ascii (fid cid : Nat) : asciiStr (simplePageBody fid cid) = true := by
  simp only [simplePageBody, asciiStr_append_eq, Bool.and_eq_true, natDigits_ascii, and_true,
    true_and] <;>
  decide

theorem twoFontPageBody_ascii (rid bid cid : Nat) :
    asciiStr (twoFontPageBody rid bid cid) = true := by
  simp only [twoFontPageBody, asciiStr_append_eq, Bool.and_eq_true, natDigits_ascii, and_true,
    true_and] <;>
  decide

theorem contentObjBody_ascii (stream : Str) (hs : asciiStr stream = true) :
    asciiStr (contentObjBody stream) = true := by
  simp only [contentObjBody, asciiStr_append_eq, Bool.and_eq_true, natDigits_ascii, hs, and_true,
    true_and] <;>
  decide

/-- Values put into the maps by `mset` keep a property of all stored bodies. -/
theorem mset_values (m : Nat → Option Str) (k : Nat) (v : Str) (P : Str → Prop)
    (hm : ∀ i b, m i = some b → P b) (hv : P v) :
    ∀ i b, mset m k v i = some b → P b := by
  intro i b h
  unfold mset at h
  split at h
  · injection h with h
    subst h
    exact hv
  · exact hm i b h

/-- The per-page fold only stores values drawn from `A` and `B`. -/
theorem foldl_mset2_values (p q : Nat → Nat) (A B : Nat → Str) (P : Str → Prop)
    (hA : ∀ i, P (A i)) (hB : ∀ i, P (B i)) :
    ∀ (l : List Nat) (m : Nat → Option Str), (∀ i b, m i = some b → P b) →
      ∀ i b, (l.foldl (fun m i => mset (mset m (p i) (A i)) (q i) (B i)) m) i = some b → P b := by
  intro l
  induction l with
  | nil =>
    intro m hm
    exact hm
  | cons a t ih =>
    intro m hm
    rw [List.foldl_cons]
    exact ih _ (mset_values _ _ _ P (mset_values _ _ _ P hm (hA a)) (hB a))

/-- Every body stored by the plain builder is ASCII, whatever the inputs. -/
theorem simpleObjectBodies_ascii (title : Str) (pages : List (List Str)) :
    ∀ i b, simpleObjectBodies title pages i = some b → asciiStr b = true := by
  unfold simpleObjectBodies
  refine mset_values _ _ _ _ ?_ (by decide)
  refine foldl_mset2_values _ _ _ _ _ (fun i => simplePageBody_ascii _ _)
    (fun i => contentObjBody_ascii _ (buildPdfPageStream_ascii _ _)) _ _ ?_
  refine mset_values _ _ _ _ (mset_values _ _ _ _ ?_ (by decide)) (pagesKidsBody_ascii _ _)
  intro i b h
  exact absurd h (by simp)

/-- Every body stored by the two-font builder is ASCII provided the page
streams are. -/
theorem twoFontObjectBodies_ascii (pageStreams : List Str)
    (hs : ∀ s ∈ pageStreams, asciiStr s = true) :
    ∀ i b, twoFontObjectBodies pageStreams i = some b → asciiStr b = true := by
  unfold twoFontObjectBodies
  refine mset_values _ _ _ _ (mset_values _ _ _ _ ?_ (by decide)) (by decide)
  refine foldl_mset2_values _ _ _ _ _ (fun i => twoFontPageBody_ascii _ _ _)
    (fun i => contentObjBody_ascii _ (asciiStr_getD pageStreams hs i)) _ _ ?_
  refine mset_values _ _ _ _ (mset_values _ _ _ _ ?_ (by decide)) (pagesKidsBody_ascii _ _)
  intro i b h
  exact absurd h (by simp)

/-- The serialization loop only appends ASCII text. -/
theorem serializeObjects_ascii (bodies : Nat → Option Str)
    (hb : ∀ i b, bodies i = some b → asciiStr b = true) :
    ∀ (ids : List Nat) (pdf : Str), asciiStr pdf = true →
      ∀ res offs, serializeObjects bodies pdf ids = .ok (res, offs) → asciiStr res = true := by
  intro ids
  induction ids with
  | nil =>
    intro pdf hp res offs h
    unfold serializeObjects at h
    injection h with h
    injection h with h1 h2
    rw [← h1]
    exact hp
  | cons id t ih =>
    intro pdf hp res offs h
    unfold serializeObjects at h
    cases hbid : bodies id with
    | none =>
      rw [hbid] at h
      exact absurd h (by simp)
    | some body =>
      rw [hbid] at h
      have h2 : (match serializeObjects bodies (pdf ++ objText id body) t with
        | Except.error e => Except.error e
        | Except.ok (res2, offs2) => Except.ok (res2, (id, pdf.length) :: offs2))
          = Except.ok (res, offs) := h
      cases hrec : serializeObjects bodies (pdf ++ objText id body) t with
      | error e =>
        rw [hrec] at h2
        exact absurd h2 (by simp)
      | ok pr =>
        obtain ⟨res2, offs2⟩ := pr
        rw [hrec] at h2
        simp at h2
        have hasc : asciiStr (pdf ++ objText id body) = true := by
          rw [asciiStr_append]
          exact ⟨hp, objText_ascii id body (hb id body hbid)⟩
        rw [← h2.1]
        exact ih (pdf ++ objText id body) hasc res2 offs2 hrec

/-- The assembled document is ASCII when every stored body is. -/
theorem assemblePdf_ascii (bodies : Nat → Option Str) (objectCount : Nat)
    (hb : ∀ i b, bodies i = some b → asciiStr b = true) :
    ∀ pdf, assemblePdf bodies objectCount = .ok pdf → asciiStr pdf = true := by
  intro pdf h
  unfold assemblePdf at h
  cases hser : serializeObjects bodies ("%PDF-1.4\n".data) (List.range' 1 objectCount) with
  | error e =>
    rw [hser] at h
    exact absurd h (by simp)
  | ok pr =>
    obtain ⟨body, offs⟩ := pr
    rw [hser] at h
    injection h with h
    have hbody : asciiStr body = true :=
      serializeObjects_ascii bodies hb _ _ (by decide) body offs hser
    have hxref : asciiStr (xrefEntries offs) = true := by
      unfold xrefEntries
      refine asciiStr_flatten _ ?_
      intro x hx
      rw [List.mem_map] at hx
      obtain ⟨pr2, _, rfl⟩ := hx
      simp only [asciiStr_append_eq, Bool.and_eq_true, pad10_ascii, true_and]
      decide
    rw [← h]
    simp only [asciiStr_append_eq, Bool.and_eq_true, natDigits_ascii, hbody, hxref, and_true,
      true_and] <;>
    decide

theorem drawPdfText_ascii (fmt : JsNumFormat) (hf : ∀ q, asciiStr (fmt.toStr q) = true)
    (text : Str) (x y size : ℚ) (font : Str) (hfont : asciiStr font = true)
    (color : ℚ × ℚ × ℚ) :
    ∀ s ∈ drawPdfText fmt text x y size font color, asciiStr s = true := by
  intro s hs
  simp only [drawPdfText, List.mem_cons, List.not_mem_nil, or_false] at hs
  rcases hs with rfl | rfl | rfl | rfl | rfl | rfl <;>
    (try simp only [asciiStr_append_eq, Bool.and_eq_true, hf, hfont, escapePdfText_ascii,
      and_true, true_and]) <;>
    decide

theorem drawPdfLine_ascii (fmt : JsNumFormat) (hf : ∀ q, asciiStr (fmt.toStr q) = true)
    (x1 y1 x2 y2 : ℚ) (color : ℚ × ℚ × ℚ) (width : ℚ) :
    ∀ s ∈ drawPdfLine fmt x1 y1 x2 y2 color width, asciiStr s = true := by
  intro s hs
  simp only [drawPdfLine, List.mem_cons, List.not_mem_nil, or_false] at hs
  rcases hs with rfl | rfl | rfl | rfl | rfl <;>
    (try simp only [asciiStr_append_eq, Bool.and_eq_true, hf, and_true, true_and]) <;>
    decide

theorem drawPdfFillRect_ascii (fmt : JsNumFormat) (hf : ∀ q, asciiStr (fmt.toStr q) = true)
    (x y width height : ℚ) (color : ℚ × ℚ × ℚ) :
    ∀ s ∈ drawPdfFillRect fmt x y width height color, asciiStr s = true := by
  intro s hs
  simp only [drawPdfFillRect, List.mem_cons, List.not_mem_nil, or_false] at hs
  rcases hs with rfl | rfl | rfl <;>
    (try simp only [asciiStr_append_eq, Bool.and_eq_true, hf, and_true, true_and]) <;>
    decide

theorem asciiStr_fontIf (P : Prop) [Decidable P] :
    asciiStr (if P then "F2".data else "F1".data) = true := by
  split <;> decide

theorem drawWrappedCell_ascii (fmt : JsNumFormat) (hf : ∀ q, asciiStr (fmt.toStr q) = true)
    (lines : List Str) (colX firstLineY : ℚ) (font : Str) (hfont : asciiStr font = true) :
    ∀ s ∈ drawWrappedCell fmt lines colX firstLineY font, asciiStr s = true := by
  intro s hs
  simp only [drawWrappedCell] at hs
  rw [List.mem_flatMap] at hs
  obtain ⟨p, _, hp⟩ := hs
  by_cases he : p.2.isEmpty
  · rw [if_pos he] at hp
    exact absurd hp (List.not_mem_nil s)
  · rw [if_neg he] at hp
    exact drawPdfText_ascii fmt hf _ _ _ _ _ hfont _ s hp

theorem engagementRowCells_ascii (fmt : JsNumFormat) (hf : ∀ q, asciiStr (fmt.toStr q) = true)
    (row : PreparedEngagementReportRow) (rowTopY rowBottomY : ℚ) :
    ∀ (cols : List ReportColumn) (colX : ℚ),
      ∀ s ∈ engagementRowCells fmt row rowTopY rowBottomY cols colX, asciiStr s = true
  | [], colX => by
    intro s hs
    simp [engagementRowCells] at hs
  | col :: rest, colX => by
    obtain ⟨key, label, width, align⟩ := col
    intro s hs
    rw [engagementRowCells] at hs
    cases key <;> rcases List.mem_append.mp hs with hs | hs <;>
      first
        | exact engagementRowCells_ascii fmt hf row rowTopY rowBottomY rest _ s hs
        | exact drawWrappedCell_ascii fmt hf _ _ _ _ (asciiStr_fontIf _) s hs
        | exact drawPdfText_ascii fmt hf _ _ _ _ _ (asciiStr_fontIf _) _ s hs

theorem engagementRowsCmds_ascii (fmt : JsNumFormat) (hf : ∀ q, asciiStr (fmt.toStr q) = true) :
    ∀ (rows : List PreparedEngagementReportRow) (index : Nat) (rowTopY : ℚ),
      ∀ s ∈ (engagementRowsCmds fmt rows index rowTopY).1, asciiStr s = true
  | [], index, rowTopY => by
    intro s hs
    simp [engagementRowsCmds] at hs
  | row :: rest, index, rowTopY => by
    intro s hs
    rcases hrec : engagementRowsCmds fmt rest (index + 1) (rowTopY - row.rowHeight)
      with ⟨restCmds, fy⟩
    simp only [engagementRowsCmds, hrec] at hs
    rcases List.mem_append.mp hs with hs | hs
    · rcases List.mem_append.mp hs with hs | hs
      · rcases List.mem_append.mp hs with hs | hs
        · split at hs
          · exact drawPdfFillRect_ascii fmt hf _ _ _ _ _ s hs
          · split at hs
            · exact drawPdfFillRect_ascii fmt hf _ _ _ _ _ s hs
            · split at hs
              · exact drawPdfFillRect_ascii fmt hf _ _ _ _ _ s hs
              · exact absurd hs (List.not_mem_nil s)
        · exact engagementRowCells_ascii fmt hf row rowTopY _ REPORT_COLUMNS REPORT_TABLE_X s hs
      · exact drawPdfLine_ascii fmt hf _ _ _ _ _ _ s hs
    · refine engagementRowsCmds_ascii fmt hf rest (index + 1) (rowTopY - row.rowHeight) s ?_
      rw [hrec]
      exact hs

theorem engagementEmptyRowCmds_ascii (fmt : JsNumFormat)
    (hf : ∀ q, asciiStr (fmt.toStr q) = true) :
    ∀ s ∈ engagementEmptyRowCmds fmt, asciiStr s = true := by
  intro s hs
  simp only [engagementEmptyRowCmds] at hs
  rcases List.mem_append.mp hs with hs | hs
  · rcases List.mem_append.mp hs with hs | hs
    · exact drawPdfFillRect_ascii fmt hf _ _ _ _ _ s hs
    · exact drawPdfText_ascii fmt hf _ _ _ _ _ (by decide) _ s hs
  · exact drawPdfLine_ascii fmt hf _ _ _ _ _ _ s hs

theorem engagementHeaderCells_ascii (fmt : JsNumFormat)
    (hf : ∀ q, asciiStr (fmt.toStr q) = true) :
    ∀ (cols : List ReportColumn) (headerX : ℚ),
      ∀ s ∈ engagementHeaderCells fmt cols headerX, asciiStr s = true
  | [], headerX => by
    intro s hs
    simp [engagementHeaderCells] at hs
  | col :: rest, headerX => by
    intro s hs
    rw [engagementHeaderCells] at hs
    rcases List.mem_append.mp hs with hs | hs
    · exact drawPdfText_ascii fmt hf _ _ _ _ _ (by decide) _ s hs
    · exact engagementHeaderCells_ascii fmt hf rest _ s hs

theorem engagementGridCmds_ascii (fmt : JsNumFormat)
    (hf : ∀ q, asciiStr (fmt.toStr q) = true) (rowTopY : ℚ) :
    ∀ (cols : List ReportColumn) (gridX : ℚ),
      ∀ s ∈ engagementGridCmds fmt rowTopY cols gridX, asciiStr s = true
  | [], gridX => by
    intro s hs
    simp [engagementGridCmds] at hs
  | col :: rest, gridX => by
    intro s hs
    rw [engagementGridCmds] at hs
    rcases List.mem_append.mp hs with hs | hs
    · exact drawPdfLine_ascii fmt hf _ _ _ _ _ _ s hs
    · exact engagementGridCmds_ascii fmt hf rowTopY rest _ s hs

theorem buildEngagementReportPageStream_ascii (fmt : JsNumFormat)
    (hf : ∀ q, asciiStr (fmt.toStr q) = true)
    (engagementName : Str) (customerName opportunity : Option Str) (spread : Spread)
    (rows : List PreparedEngagementReportRow) (totals : SizerTotals)
    (generatedAtLabel : Str) (pageIndex pageCount : Nat) :
    asciiStr (buildEngagementReportPageStream fmt engagementName customerName opportunity
      spread rows totals generatedAtLabel pageIndex pageCount) = true := by
  simp only [buildEngagementReportPageStream]
  refine asciiStr_intercalate _ (by decide) _ ?_
  intro x hx
  simp only [List.mem_append] at hx
  rcases hx with
    ((((((((((((((((((hx | hx) | hx) | hx) | hx) | hx) | hx) | hx) | hx) | hx) | hx) | hx)
      | hx) | hx) | hx) | hx) | hx) | hx) | hx) <;>
    first
      | exact drawPdfFillRect_ascii fmt hf _ _ _ _ _ x hx
      | exact drawPdfText_ascii fmt hf _ _ _ _ _ (by decide) _ x hx
      | exact drawPdfLine_ascii fmt hf _ _ _ _ _ _ x hx
      | exact engagementHeaderCells_ascii fmt hf REPORT_COLUMNS _ x hx
      | exact engagementRowsCmds_ascii fmt hf rows 0 _ x hx
      | exact engagementGridCmds_ascii fmt hf _ REPORT_COLUMNS _ x hx
      | (split at hx
         · exact engagementEmptyRowCmds_ascii fmt hf x hx
         · exact engagementRowsCmds_ascii fmt hf rows 0 _ x hx)

theorem engagementStreams_ascii (fmt : JsNumFormat)
    (hf : ∀ q, asciiStr (fmt.toStr q) = true) (args : EngagementArgs)
    (generatedAtLabel : Str) :
    ∀ s ∈ engagementStreams fmt args generatedAtLabel, asciiStr s = true := by
  intro s hs
  simp only [engagementStreams] at hs
  rw [List.mem_map] at hs
  obtain ⟨p, _, rfl⟩ := hs
  exact buildEngagementReportPageStream_ascii fmt hf _ _ _ _ _ _ _ _ _

theorem buildSimplePdf_ascii (title : Str) (lines : List Str) (pdf : Str)
    (h : buildSimplePdf title lines = .ok pdf) : asciiStr pdf = true := by
  unfold buildSimplePdf at h
  exact assemblePdf_ascii _ _ (simpleObjectBodies_ascii title _) pdf h

theorem buildEngagementReportPdf_ascii (fmt : JsNumFormat)
    (hf : ∀ q, asciiStr (fmt.toStr q) = true) (args : EngagementArgs)
    (generatedAtLabel pdf : Str)
    (h : buildEngagementReportPdf fmt args generatedAtLabel = .ok pdf) :
    asciiStr pdf = true := by
  unfold buildEngagementReportPdf buildPdfWithTwoFonts at h
  exact assemblePdf_ascii _ _
    (twoFontObjectBodies_ascii _ (engagementStreams_ascii fmt hf args generatedAtLabel)) pdf h

/-- Claim C10: every character of the complete generated PDF string —
header, object bodies, content streams, xref table and trailer — is 7-bit
ASCII: unconditionally for `buildSimplePdf` (all drawn text passes through
`toPdfSafeAscii` inside `escapePdfText`), and for `buildEngagementReportPdf`
whenever the ambient number-to-string conversion (the `fmt` parameter
modelling JavaScript's `String(number)`/`toLocaleString("en-US")`, which emit
only digits, `.`, `-`, `,` and exponent letters) emits ASCII.  Encoding the
string with the `"ascii"` codec is therefore lossless, and the byte offsets
and `/Length` values computed via `Buffer.byteLength` equal the
corresponding character counts. -/
theorem claim_C10_ascii :
    (∀ (title : Str) (lines : List Str) (pdf : Str),
        buildSimplePdf title lines = .ok pdf → asciiStr pdf = true) ∧
    (∀ (fmt : JsNumFormat), (∀ q, asciiStr (fmt.toStr q) = true) →
      ∀ (args : EngagementArgs) (generatedAtLabel pdf : Str),
        buildEngagementReportPdf fmt args generatedAtLabel = .ok pdf →
        asciiStr pdf = true) :=
  ⟨buildSimplePdf_ascii, fun fmt hf args lab pdf h =>
    buildEngagementReportPdf_ascii fmt hf args lab pdf h⟩

set_option maxRecDepth 100000 in
/-- Witness for claim C10 at concrete inputs: both builders produce an
all-ASCII document. -/
theorem claim_C10_witness :
    asciiStr ((buildSimplePdf ("T".data) [("a".data)]).toOption.getD []) = true ∧
    asciiStr ((buildEngagementReportPdf stubNumFormat emptyResultArgs
      ("2024-01-01 00:00".data)).toOption.getD []) = true := by
  constructor
  · have hs : (buildSimplePdf ("T".data) [("a".data)]).toOption.isSome = true := by decide
    rcases hE : buildSimplePdf ("T".data) [("a".data)] with e | pdf
    · rw [hE] at hs
      exact Bool.noConfusion hs
    · show asciiStr pdf = true
      exact claim_C10_ascii.1 ("T".data) [("a".data)] pdf hE
  · have hs : (buildEngagementReportPdf stubNumFormat emptyResultArgs
        ("2024-01-01 00:00".data)).toOption.isSome = true := by decide
    rcases hE : buildEngagementReportPdf stubNumFormat emptyResultArgs
        ("2024-01-01 00:00".data) with e | pdf
    · rw [hE] at hs
      exact Bool.noConfusion hs
    · show asciiStr pdf = true
      refine claim_C10_ascii.2 stubNumFormat ?_ emptyResultArgs
        ("2024-01-01 00:00".data) pdf hE
      intro q
      show asciiStr ("0".data) = true
      decide

end QSMaxSP
